import Mathlib

/-!
# FlyVR tracker: off-axis projection, render loop and stimulus phases

A shallow embedding of `OgreApplication.cpp` (with the declarations of
`OgreApplication.h`, `StimManager.h` and `CylinderBars.h`).

Numbers.  The embedded functions are written over the operations `+`, `-`,
`*`, `/`, unary minus, `<` and the literals 0, 1, 2 of a number type `K`, and
are used at two instances of `K`:

* exact arithmetic, `K` a linearly ordered field: the program up to rounding,
  wherever every denominator is non-zero.  In a field `a / 0 = 0`, which is
  not what the program computes, so the theorems at this instance assume or
  prove that the denominators are non-zero;
* IEEE special values, `Flt K`: finite values with exact operations, signed
  zeros, infinities and NaN with the rules of IEEE 754.  This is the program
  where a denominator is zero.

The conversion of a run-time `double` to `Ogre::Real` (the eye position in
updateProjMatrices, the position in setRootPos) is the parameter `toReal`:
the identity when `Ogre::Real` is `double`, `toBinary32` in Ogre's default
build.  The square root used by `Ogre::Vector3::normalise` is the parameter
`sqrt`.

The constants of the namespace `OgreConstants` are not part of the sources
and are parameters of the embedding (`OgreConstants`).
-/

namespace Tracker

/-! ## Ogre value types -/

/-- Ogre::Vector3, three real components. -/
structure Vector3 (K : Type) where
  x : K
  y : K
  z : K
deriving DecidableEq, Repr

/-- Ogre::Matrix4, row-major: `mRC` is row `R`, column `C`. -/
structure Matrix4 (K : Type) where
  m00 : K
  m01 : K
  m02 : K
  m03 : K
  m10 : K
  m11 : K
  m12 : K
  m13 : K
  m20 : K
  m21 : K
  m22 : K
  m23 : K
  m30 : K
  m31 : K
  m32 : K
  m33 : K
deriving DecidableEq, Repr

section Arithmetic

variable {K : Type} [Zero K] [One K] [OfNat K 2] [Add K] [Sub K] [Mul K] [Div K] [Neg K]
  [LT K] [∀ a b : K, Decidable (a < b)]

/-- Vector3 `operator+`. -/
def Vector3.add (a b : Vector3 K) : Vector3 K :=
  ⟨a.x + b.x, a.y + b.y, a.z + b.z⟩

/-- Vector3 `operator-`. -/
def Vector3.sub (a b : Vector3 K) : Vector3 K :=
  ⟨a.x - b.x, a.y - b.y, a.z - b.z⟩

/-- Vector3::dotProduct. -/
def Vector3.dotProduct (a b : Vector3 K) : K :=
  a.x * b.x + a.y * b.y + a.z * b.z

/-- Vector3::crossProduct. -/
def Vector3.crossProduct (a b : Vector3 K) : Vector3 K :=
  ⟨a.y * b.z - a.z * b.y, a.z * b.x - a.x * b.z, a.x * b.y - a.y * b.x⟩

/-- Vector3::normalise, the `normalize` of the spec (the Ogre library is not
part of the sources): the vector is scaled by the inverse of its length when
the length is positive, and left as it is otherwise.  The square root is the
parameter `sqrt`. -/
def Vector3.normalise (sqrt : K → K) (v : Vector3 K) : Vector3 K :=
  let fLength := sqrt (v.x * v.x + v.y * v.y + v.z * v.z)
  if 0 < fLength then
    let fInvLength := 1 / fLength
    ⟨v.x * fInvLength, v.y * fInvLength, v.z * fInvLength⟩
  else v

/-- Matrix4 `operator*` (concatenation): the usual matrix product. -/
def Matrix4.mul (a b : Matrix4 K) : Matrix4 K where
  m00 := a.m00 * b.m00 + a.m01 * b.m10 + a.m02 * b.m20 + a.m03 * b.m30
  m01 := a.m00 * b.m01 + a.m01 * b.m11 + a.m02 * b.m21 + a.m03 * b.m31
  m02 := a.m00 * b.m02 + a.m01 * b.m12 + a.m02 * b.m22 + a.m03 * b.m32
  m03 := a.m00 * b.m03 + a.m01 * b.m13 + a.m02 * b.m23 + a.m03 * b.m33
  m10 := a.m10 * b.m00 + a.m11 * b.m10 + a.m12 * b.m20 + a.m13 * b.m30
  m11 := a.m10 * b.m01 + a.m11 * b.m11 + a.m12 * b.m21 + a.m13 * b.m31
  m12 := a.m10 * b.m02 + a.m11 * b.m12 + a.m12 * b.m22 + a.m13 * b.m32
  m13 := a.m10 * b.m03 + a.m11 * b.m13 + a.m12 * b.m23 + a.m13 * b.m33
  m20 := a.m20 * b.m00 + a.m21 * b.m10 + a.m22 * b.m20 + a.m23 * b.m30
  m21 := a.m20 * b.m01 + a.m21 * b.m11 + a.m22 * b.m21 + a.m23 * b.m31
  m22 := a.m20 * b.m02 + a.m21 * b.m12 + a.m22 * b.m22 + a.m23 * b.m32
  m23 := a.m20 * b.m03 + a.m21 * b.m13 + a.m22 * b.m23 + a.m23 * b.m33
  m30 := a.m30 * b.m00 + a.m31 * b.m10 + a.m32 * b.m20 + a.m33 * b.m30
  m31 := a.m30 * b.m01 + a.m31 * b.m11 + a.m32 * b.m21 + a.m33 * b.m31
  m32 := a.m30 * b.m02 + a.m31 * b.m12 + a.m32 * b.m22 + a.m33 * b.m32
  m33 := a.m30 * b.m03 + a.m31 * b.m13 + a.m32 * b.m23 + a.m33 * b.m33

/-- Matrix4::transpose. -/
def Matrix4.transpose (a : Matrix4 K) : Matrix4 K where
  m00 := a.m00
  m01 := a.m10
  m02 := a.m20
  m03 := a.m30
  m10 := a.m01
  m11 := a.m11
  m12 := a.m21
  m13 := a.m31
  m20 := a.m02
  m21 := a.m12
  m22 := a.m22
  m23 := a.m32
  m30 := a.m03
  m31 := a.m13
  m32 := a.m23
  m33 := a.m33

end Arithmetic

/-! ## Application data -/

/-- Pose3D of `OgreApplication.h`: position and pitch/yaw/roll. -/
structure Pose3D (K : Type) where
  x : K
  y : K
  z : K
  pitch : K
  yaw : K
  roll : K
deriving DecidableEq, Repr

/-- MonitorInfo of `OgreApplication.h`. -/
structure MonitorInfo (K : Type) where
  id : Nat
  pixelWidth : Nat
  pixelHeight : Nat
  displayFullscreen : Bool
  pa : Vector3 K
  pb : Vector3 K
  pc : Vector3 K
deriving DecidableEq, Repr

/-- The constants of the namespace `OgreConstants` that the embedded
functions read; their definitions are not part of the sources.  The lengths
are taken to be representable in `Ogre::Real`, so that their conversions (the
casts `Ogre::Real(NearClipDist)`, `Ogre::Real(FarClipDist)` and the
`Ogre::Vector3` constructors of defineMonitors) leave them unchanged. -/
structure OgreConstants (K : Type) where
  DisplayCount : Nat
  North : Nat
  West : Nat
  East : Nat
  DisplayWidthMeters : K
  DisplayHeightMeters : K
  NearClipDist : K
  FarClipDist : K
  TargetLoopDuration : K

/-- The part of an Ogre::Camera the application touches: its name and the
custom projection matrix, `none` while the camera uses its own field of view
and aspect ratio, `some m` after `setCustomProjectionMatrix(true, m)`. -/
structure Camera (K : Type) where
  name : String
  customProjMatrix : Option (Matrix4 K)
deriving DecidableEq

/-- The operations of Ogre::Node that `setRootRot` calls, as functions on the
stored orientation; `Q` is the type of orientations.  They belong to the Ogre
library and are parameters: `setOrientation q` is the orientation stored by
`setOrientation(q)`, and `pitch a o`, `yaw a o`, `roll a o` are the
orientation after `pitch(Radian(a))`, `yaw(Radian(a))`, `roll(Radian(a))` on a
node whose orientation was `o`. -/
structure NodeOps (K Q : Type) where
  setOrientation : Q → Q
  pitch : K → Q → Q
  yaw : K → Q → Q
  roll : K → Q → Q

/-- The part of the root Ogre::SceneNode the application touches. -/
structure SceneNode (K Q : Type) where
  mPosition : Vector3 K
  mOrientation : Q
  mInitialOrientation : Q

/-- The members of OgreApplication that the embedded methods read or write.
The `std::vector` members are total maps from the index; the source never
checks an index against a size. -/
structure OgreApplication (K Q : Type) where
  mMonitors : Nat → MonitorInfo K
  mCameras : Nat → Camera K
  rootNode : SceneNode K Q

/-- Assignment to one element of a `std::vector` member. -/
def setAt {α : Type} (v : Nat → α) (i : Nat) (a : α) : Nat → α :=
  fun j => if j = i then a else v j

section Projection

variable {K : Type} [Zero K] [One K] [OfNat K 2] [Add K] [Sub K] [Mul K] [Div K] [Neg K]
  [LT K] [∀ a b : K, Decidable (a < b)]

/-- Assignment to the member `pa` of a monitor. -/
def MonitorInfo.setPa (mon : MonitorInfo K) (v : Vector3 K) : MonitorInfo K :=
  { mon with pa := v }

/-- Assignment to the member `pb` of a monitor. -/
def MonitorInfo.setPb (mon : MonitorInfo K) (v : Vector3 K) : MonitorInfo K :=
  { mon with pb := v }

/-- Assignment to the member `pc` of a monitor. -/
def MonitorInfo.setPc (mon : MonitorInfo K) (v : Vector3 K) : MonitorInfo K :=
  { mon with pc := v }

/-- OgreApplication::defineMonitors: the three assignments per monitor, in
the order of the source (North, West, East). -/
def defineMonitors {Q : Type} (c : OgreConstants K) (app : OgreApplication K Q) :
    OgreApplication K Q :=
  let W := c.DisplayWidthMeters
  let H := c.DisplayHeightMeters
  let m := app.mMonitors
  -- North monitor
  let m := setAt m c.North ((m c.North).setPa ⟨-W / 2, -H / 2, -W / 2⟩)
  let m := setAt m c.North ((m c.North).setPb ((m c.North).pa.add ⟨W, 0, 0⟩))
  let m := setAt m c.North ((m c.North).setPc ((m c.North).pa.add ⟨0, H, 0⟩))
  -- West monitor
  let m := setAt m c.West ((m c.West).setPa ⟨-W / 2, -H / 2, W / 2⟩)
  let m := setAt m c.West ((m c.West).setPb ((m c.West).pa.add ⟨0, 0, -W⟩))
  let m := setAt m c.West ((m c.West).setPc ((m c.West).pa.add ⟨0, H, 0⟩))
  -- East monitor
  let m := setAt m c.East ((m c.East).setPa ⟨W / 2, -H / 2, -W / 2⟩)
  let m := setAt m c.East ((m c.East).setPb ((m c.East).pa.add ⟨0, 0, W⟩))
  let m := setAt m c.East ((m c.East).setPc ((m c.East).pa.add ⟨0, H, 0⟩))
  { app with mMonitors := m }

/-- The unit vector `vr` of updateProjMatrices. -/
def monitorVr (sqrt : K → K) (mon : MonitorInfo K) : Vector3 K :=
  (mon.pb.sub mon.pa).normalise sqrt

/-- The unit vector `vu` of updateProjMatrices. -/
def monitorVu (sqrt : K → K) (mon : MonitorInfo K) : Vector3 K :=
  (mon.pc.sub mon.pa).normalise sqrt

/-- The unit vector `vn` of updateProjMatrices. -/
def monitorVn (sqrt : K → K) (mon : MonitorInfo K) : Vector3 K :=
  ((monitorVr sqrt mon).crossProduct (monitorVu sqrt mon)).normalise sqrt

/-- The local `d` of updateProjMatrices: distance from the eye to the screen. -/
def screenDist (sqrt : K → K) (mon : MonitorInfo K) (pe : Vector3 K) : K :=
  -((monitorVn sqrt mon).dotProduct (mon.pa.sub pe))

/-- The local `l` of updateProjMatrices. -/
def frustumL (sqrt : K → K) (n : K) (mon : MonitorInfo K) (pe : Vector3 K) : K :=
  (monitorVr sqrt mon).dotProduct (mon.pa.sub pe) * n / screenDist sqrt mon pe

/-- The local `r` of updateProjMatrices. -/
def frustumR (sqrt : K → K) (n : K) (mon : MonitorInfo K) (pe : Vector3 K) : K :=
  (monitorVr sqrt mon).dotProduct (mon.pb.sub pe) * n / screenDist sqrt mon pe

/-- The local `b` of updateProjMatrices. -/
def frustumB (sqrt : K → K) (n : K) (mon : MonitorInfo K) (pe : Vector3 K) : K :=
  (monitorVu sqrt mon).dotProduct (mon.pa.sub pe) * n / screenDist sqrt mon pe

/-- The local `t` of updateProjMatrices. -/
def frustumT (sqrt : K → K) (n : K) (mon : MonitorInfo K) (pe : Vector3 K) : K :=
  (monitorVu sqrt mon).dotProduct (mon.pc.sub pe) * n / screenDist sqrt mon pe

/-- The matrix `P` of updateProjMatrices, from the extents and clip distances. -/
def projP (l r b t n f : K) : Matrix4 K where
  m00 := (2 * n) / (r - l)
  m01 := 0
  m02 := (r + l) / (r - l)
  m03 := 0
  m10 := 0
  m11 := (2 * n) / (t - b)
  m12 := (t + b) / (t - b)
  m13 := 0
  m20 := 0
  m21 := 0
  m22 := -(f + n) / (f - n)
  m23 := -(2 * f * n) / (f - n)
  m30 := 0
  m31 := 0
  m32 := -1
  m33 := 0

/-- The rotation matrix `M` of updateProjMatrices. -/
def rotM (vr vu vn : Vector3 K) : Matrix4 K where
  m00 := vr.x
  m01 := vu.x
  m02 := vn.x
  m03 := 0
  m10 := vr.y
  m11 := vu.y
  m12 := vn.y
  m13 := 0
  m20 := vr.z
  m21 := vu.z
  m22 := vn.z
  m23 := 0
  m30 := 0
  m31 := 0
  m32 := 0
  m33 := 1

/-- The translation matrix `T` of updateProjMatrices. -/
def transT (pe : Vector3 K) : Matrix4 K where
  m00 := 1
  m01 := 0
  m02 := 0
  m03 := -pe.x
  m10 := 0
  m11 := 1
  m12 := 0
  m13 := -pe.y
  m20 := 0
  m21 := 0
  m22 := 1
  m23 := -pe.z
  m30 := 0
  m31 := 0
  m32 := 0
  m33 := 1

/-- The body of the loop of updateProjMatrices up to `offAxis`, for one
monitor: `offAxis = P * M.transpose() * T`. -/
def offAxis (sqrt : K → K) (n f : K) (mon : MonitorInfo K) (pe : Vector3 K) : Matrix4 K :=
  let vr := monitorVr sqrt mon
  let vu := monitorVu sqrt mon
  let vn := monitorVn sqrt mon
  let l := frustumL sqrt n mon pe
  let r := frustumR sqrt n mon pe
  let b := frustumB sqrt n mon pe
  let t := frustumT sqrt n mon pe
  let P := projP l r b t n f
  let M := rotM vr vu vn
  let T := transT pe
  (P.mul M.transpose).mul T

/-- Camera::setCustomProjectionMatrix(true, m). -/
def Camera.setCustomProjectionMatrix (cam : Camera K) (m : Matrix4 K) : Camera K :=
  { cam with customProjMatrix := some m }

/-- The `Ogre::Vector3 pe(x, y, z)` of updateProjMatrices: the constructor
converts the three `double` arguments to `Ogre::Real`; `toReal` is that
conversion (the identity when `Ogre::Real` is `double`, the rounding to
binary32 in Ogre's default build). -/
def eyeVector (toReal : K → K) (x y z : K) : Vector3 K :=
  ⟨toReal x, toReal y, toReal z⟩

/-- OgreApplication::updateProjMatrices: for each `i < DisplayCount`, in
increasing order, the matrix of monitor `i` for the eye `pe` is installed on
camera `i`. -/
def updateProjMatrices {Q : Type} (c : OgreConstants K) (sqrt : K → K) (toReal : K → K)
    (app : OgreApplication K Q) (x y z : K) : OgreApplication K Q :=
  let pe : Vector3 K := eyeVector toReal x y z
  (List.range c.DisplayCount).foldl
    (fun a i =>
      let offAxis := offAxis sqrt c.NearClipDist c.FarClipDist (a.mMonitors i) pe
      let cam := (a.mCameras i).setCustomProjectionMatrix offAxis
      { a with mCameras := setAt a.mCameras i cam })
    app

end Projection

/-- The contract of the square root on the ordered field: on non-negative
arguments the result is the non-negative root. -/
def IsSqrt {K : Type} [LinearOrderedField K] (sqrt : K → K) : Prop :=
  ∀ x : K, 0 ≤ x → 0 ≤ sqrt x ∧ sqrt x * sqrt x = x

section Scene

variable {K Q : Type}

/-- OgreApplication::setRootPos: the position is `Ogre::Vector3(x, y, z)`,
the three `double` arguments converted to `Ogre::Real` by `toReal`. -/
def setRootPos (toReal : K → K) (app : OgreApplication K Q) (x y z : K) :
    OgreApplication K Q :=
  let rootNode := app.rootNode
  { app with rootNode := { rootNode with mPosition := ⟨toReal x, toReal y, toReal z⟩ } }

/-- OgreApplication::setRootRot: the orientation is set to the initial
orientation, then `pitch`, `yaw` and `roll` are called in this order. -/
def setRootRot (ops : NodeOps K Q) (app : OgreApplication K Q) (pitch yaw roll : K) :
    OgreApplication K Q :=
  let rootNode := app.rootNode
  let rootNode := { rootNode with mOrientation := ops.setOrientation rootNode.mInitialOrientation }
  let rootNode := { rootNode with mOrientation := ops.pitch pitch rootNode.mOrientation }
  let rootNode := { rootNode with mOrientation := ops.yaw yaw rootNode.mOrientation }
  let rootNode := { rootNode with mOrientation := ops.roll roll rootNode.mOrientation }
  { app with rootNode := rootNode }

/-- OgreApplication::renderOneFrame: the frame is rendered by the Ogre root;
no member embedded here changes. -/
def renderOneFrame (app : OgreApplication K Q) : OgreApplication K Q :=
  app

end Scene

/-! ## The graphics thread -/

/-- The calls the graphics thread issues in one iteration of its loop. -/
inductive Call (K : Type) where
  | readPoses (realPose virtPose : Pose3D K)
  | stimUpdate
  | setRootPos (x y z : K)
  | setRootRot (pitch yaw roll : K)
  | updateProjMatrices (x y z : K)
  | renderOneFrame
deriving DecidableEq

/-- The state the loop of GraphicsThread works on: the two global poses, the
application `app` and the stimulus manager `stim` (of state type `S`). -/
structure World (K Q S : Type) where
  g_realPose : Pose3D K
  g_virtPose : Pose3D K
  app : OgreApplication K Q
  stim : S

/-- What the pacing code at the end of an iteration does: the duration
printed in the "Slow frame" line, if one is printed, and the time point
passed to `sleep_until`, if it is called. -/
structure PaceOutcome (K : Type) where
  slowFrame : Option K
  sleepUntil : Option K
deriving DecidableEq

section Loop

variable {K : Type} [LinearOrderedField K] {Q S : Type}

/-- The body of the `while` loop of GraphicsThread between the two clock
readings: the poses are copied under the lock, then the stimulus, the scene
root and the projection matrices are updated and one frame is rendered.
`stimUpdate` is StimManager::Update, which is not part of the sources and may
change any part of the state.  The result is the new state and the calls
issued, appended to `calls`. -/
def GraphicsThread.body (c : OgreConstants K) (sqrt : K → K) (toReal : K → K)
    (ops : NodeOps K Q) (stimUpdate : World K Q S → World K Q S) (w : World K Q S) (calls : List (Call K)) :
    World K Q S × List (Call K) :=
  -- Read out real pose and virtual pose
  let realPose := w.g_realPose
  let virtPose := w.g_virtPose
  let calls := calls ++ [Call.readPoses realPose virtPose]
  -- Update the stimulus
  let w := stimUpdate w
  let calls := calls ++ [Call.stimUpdate]
  -- Move scene based on difference between real position and virtual position
  let dx := realPose.x - virtPose.x
  let dy := realPose.y - virtPose.y
  let dz := realPose.z - virtPose.z
  let w := { w with app := setRootPos toReal w.app dx dy dz }
  let calls := calls ++ [Call.setRootPos dx dy dz]
  -- Rotate scene based on difference between real and virtual orientation
  let dpitch := realPose.pitch - virtPose.pitch
  let dyaw := realPose.yaw - virtPose.yaw
  let droll := realPose.roll - virtPose.roll
  let w := { w with app := setRootRot ops w.app dpitch dyaw droll }
  let calls := calls ++ [Call.setRootRot dpitch dyaw droll]
  -- Update the projection matrices based on eye position
  let w := { w with app := updateProjMatrices c sqrt toReal w.app realPose.x realPose.y realPose.z }
  let calls := calls ++ [Call.updateProjMatrices realPose.x realPose.y realPose.z]
  -- Render the frame
  let w := { w with app := renderOneFrame w.app }
  let calls := calls ++ [Call.renderOneFrame]
  (w, calls)

/-- The pacing code at the end of the loop of GraphicsThread, from the two
clock readings `loopStart` and `loopStop` (in seconds). -/
def GraphicsThread.pace (c : OgreConstants K) (loopStart loopStop : K) : PaceOutcome K :=
  let loopDuration := loopStop - loopStart
  if loopDuration ≥ c.TargetLoopDuration then
    ⟨some loopDuration, none⟩
  else
    let stopTime := loopStart + c.TargetLoopDuration
    ⟨none, some stopTime⟩

end Loop

/-! ## Stimulus phases -/

/-- CylinderBarStates of `CylinderBars.h`. -/
inductive CylinderBarStates where
  | Init
  | WaitBefore
  | Active
  | WaitAfter
deriving DecidableEq, Repr

/-- The members of CylinderBars that drive its phases (`CylinderBars.h`),
with `isDone`, the completion signal of the spec. -/
structure CylinderBars (K : Type) where
  currentState : CylinderBarStates
  lastTime : K
  waitBefore : K
  activeDuration : K
  waitAfter : K
  isDone : Bool
deriving DecidableEq, Repr

section Stimulus

variable {K : Type} [LinearOrderedField K]

/-- Modelled from the spec: the body of CylinderBars::Update is not part of
the sources (only its declaration in `CylinderBars.h` is).  Spec 4.4: `Init`
records the entry timestamp and moves to `WaitBefore`; `WaitBefore` moves to
`Active` on elapsed >= `waitBefore` and resets the phase timestamp; `Active`
moves to `WaitAfter` on elapsed >= `activeDuration` and resets the phase
timestamp; `WaitAfter` signals completion on elapsed >= `waitAfter`.  The
clock reading of the call is the argument `now`; the changes to the scene
(geometry, rotation) are not embedded. -/
def CylinderBars.Update (s : CylinderBars K) (now : K) : CylinderBars K :=
  match s.currentState with
  | CylinderBarStates.Init =>
      { s with currentState := CylinderBarStates.WaitBefore, lastTime := now }
  | CylinderBarStates.WaitBefore =>
      if now - s.lastTime ≥ s.waitBefore then
        { s with currentState := CylinderBarStates.Active, lastTime := now }
      else s
  | CylinderBarStates.Active =>
      if now - s.lastTime ≥ s.activeDuration then
        { s with currentState := CylinderBarStates.WaitAfter, lastTime := now }
      else s
  | CylinderBarStates.WaitAfter =>
      if now - s.lastTime ≥ s.waitAfter then
        { s with isDone := true }
      else s

/-- The stimulus before the update of tick `k`, when it starts as `s0` and
the update of tick `i` reads the clock at `tick i`. -/
def CylinderBars.after (s0 : CylinderBars K) (tick : Nat → K) : Nat → CylinderBars K
  | 0 => s0
  | k + 1 => (CylinderBars.after s0 tick k).Update (tick k)

/-- The duration of a phase: the time to wait in it (none in `Init`). -/
def CylinderBars.duration (s : CylinderBars K) : CylinderBarStates → K
  | CylinderBarStates.Init => 0
  | CylinderBarStates.WaitBefore => s.waitBefore
  | CylinderBarStates.Active => s.activeDuration
  | CylinderBarStates.WaitAfter => s.waitAfter

/-- The position of a phase in the order Init, WaitBefore, Active, WaitAfter. -/
def CylinderBarStates.rank : CylinderBarStates → Nat
  | CylinderBarStates.Init => 0
  | CylinderBarStates.WaitBefore => 1
  | CylinderBarStates.Active => 2
  | CylinderBarStates.WaitAfter => 3

end Stimulus

/-! ## IEEE special values and the conversion to binary32 -/

/-- A floating-point value with the special values of IEEE 754: a finite
value (`fin 0` is the positive zero), the negative zero, an infinity with its
sign (`inf true` is the negative one) and NaN.  The operations below follow
IEEE 754 on zeros, infinities and NaN and are exact on finite results: no
rounding, no overflow. -/
inductive Flt (K : Type) where
  | fin (v : K)
  | negZero
  | inf (negative : Bool)
  | nan
deriving DecidableEq, Repr

section FltArithmetic

variable {K : Type} [LinearOrderedField K]

/-- The real value of a finite value, 0 for the others. -/
def Flt.val : Flt K → K
  | Flt.fin v => v
  | _ => 0

/-- The value is +0 or -0. -/
def Flt.isZero : Flt K → Bool
  | Flt.fin v => decide (v = 0)
  | Flt.negZero => true
  | _ => false

/-- The value is an infinity or NaN. -/
def Flt.isSpecial : Flt K → Bool
  | Flt.inf _ => true
  | Flt.nan => true
  | _ => false

/-- The zero with the given sign (`true` is negative). -/
def Flt.zero (negative : Bool) : Flt K :=
  if negative then Flt.negZero else Flt.fin 0

/-- IEEE negation: the sign is flipped, also on zeros and infinities. -/
def Flt.neg : Flt K → Flt K
  | Flt.fin v => if v = 0 then Flt.negZero else Flt.fin (-v)
  | Flt.negZero => Flt.fin 0
  | Flt.inf s => Flt.inf (!s)
  | Flt.nan => Flt.nan

/-- IEEE addition (round to nearest): `inf + -inf` is NaN, `-0 + -0` is `-0`,
every other zero sum is `+0`. -/
def Flt.add : Flt K → Flt K → Flt K
  | Flt.nan, _ => Flt.nan
  | _, Flt.nan => Flt.nan
  | Flt.inf s, Flt.inf t => if s = t then Flt.inf s else Flt.nan
  | Flt.inf s, _ => Flt.inf s
  | _, Flt.inf t => Flt.inf t
  | Flt.negZero, Flt.negZero => Flt.negZero
  | Flt.negZero, Flt.fin w => Flt.fin w
  | Flt.fin v, Flt.negZero => Flt.fin v
  | Flt.fin v, Flt.fin w => Flt.fin (v + w)

/-- IEEE subtraction: `a - b` is `a + (-b)`. -/
def Flt.sub (a b : Flt K) : Flt K :=
  Flt.add a (Flt.neg b)

/-- IEEE multiplication: the sign is the exclusive or of the signs,
`0 * inf` is NaN. -/
def Flt.mul : Flt K → Flt K → Flt K
  | Flt.nan, _ => Flt.nan
  | _, Flt.nan => Flt.nan
  | Flt.inf s, Flt.inf t => Flt.inf (xor s t)
  | Flt.inf s, Flt.fin w => if w = 0 then Flt.nan else Flt.inf (xor s (decide (w < 0)))
  | Flt.inf _, Flt.negZero => Flt.nan
  | Flt.fin v, Flt.inf t => if v = 0 then Flt.nan else Flt.inf (xor (decide (v < 0)) t)
  | Flt.negZero, Flt.inf _ => Flt.nan
  | Flt.fin v, Flt.fin w =>
      if v * w = 0 then Flt.zero (xor (decide (v < 0)) (decide (w < 0))) else Flt.fin (v * w)
  | Flt.fin v, Flt.negZero => Flt.zero (!(decide (v < 0)))
  | Flt.negZero, Flt.fin w => Flt.zero (!(decide (w < 0)))
  | Flt.negZero, Flt.negZero => Flt.fin 0

/-- IEEE division: the sign is the exclusive or of the signs, `0 / 0` and
`inf / inf` are NaN, a non-zero value over a zero is an infinity. -/
def Flt.div : Flt K → Flt K → Flt K
  | Flt.nan, _ => Flt.nan
  | _, Flt.nan => Flt.nan
  | Flt.inf _, Flt.inf _ => Flt.nan
  | Flt.inf s, Flt.fin w => Flt.inf (xor s (decide (w < 0)))
  | Flt.inf s, Flt.negZero => Flt.inf (!s)
  | Flt.fin v, Flt.inf t => Flt.zero (xor (decide (v < 0)) t)
  | Flt.negZero, Flt.inf t => Flt.zero (!t)
  | Flt.fin v, Flt.fin w =>
      if w = 0 then (if v = 0 then Flt.nan else Flt.inf (decide (v < 0)))
      else if v = 0 then Flt.zero (decide (w < 0)) else Flt.fin (v / w)
  | Flt.fin v, Flt.negZero => if v = 0 then Flt.nan else Flt.inf (!(decide (v < 0)))
  | Flt.negZero, Flt.fin w => if w = 0 then Flt.nan else Flt.zero (!(decide (w < 0)))
  | Flt.negZero, Flt.negZero => Flt.nan

/-- IEEE comparison `a < b`: false when either side is NaN, the two zeros
are equal. -/
def Flt.ltb : Flt K → Flt K → Bool
  | Flt.nan, _ => false
  | _, Flt.nan => false
  | Flt.inf s, Flt.inf t => s && !t
  | Flt.inf s, _ => s
  | _, Flt.inf t => !t
  | a, b => decide (a.val < b.val)

/-- IEEE square root over a square root `sqrt` of the finite values: NaN
on negative values, `-0` on `-0`. -/
def Flt.sqrt (sqrt : K → K) : Flt K → Flt K
  | Flt.fin v => if v < 0 then Flt.nan else Flt.fin (sqrt v)
  | Flt.negZero => Flt.negZero
  | Flt.inf s => if s then Flt.nan else Flt.inf false
  | Flt.nan => Flt.nan

instance : Zero (Flt K) := ⟨Flt.fin 0⟩

instance : One (Flt K) := ⟨Flt.fin 1⟩

instance : OfNat (Flt K) 2 := ⟨Flt.fin 2⟩

instance : Neg (Flt K) := ⟨Flt.neg⟩

instance : Add (Flt K) := ⟨Flt.add⟩

instance : Sub (Flt K) := ⟨Flt.sub⟩

instance : Mul (Flt K) := ⟨Flt.mul⟩

instance : Div (Flt K) := ⟨Flt.div⟩

instance : LT (Flt K) := ⟨fun a b => Flt.ltb a b = true⟩

instance (a b : Flt K) : Decidable (a < b) :=
  inferInstanceAs (Decidable (Flt.ltb a b = true))

/-- The constants as finite floating-point values. -/
def OgreConstants.toFlt (c : OgreConstants K) : OgreConstants (Flt K) :=
  ⟨c.DisplayCount, c.North, c.West, c.East, Flt.fin c.DisplayWidthMeters,
    Flt.fin c.DisplayHeightMeters, Flt.fin c.NearClipDist, Flt.fin c.FarClipDist,
    Flt.fin c.TargetLoopDuration⟩

/-- Round to the nearest integer, ties to the even one. -/
def roundHalfEven [FloorRing K] (y : K) : Int :=
  let f := Int.floor y
  let r := y - (f : K)
  if r < 1 / 2 then f else if 1 / 2 < r then f + 1 else if f % 2 = 0 then f else f + 1

/-- The conversion of a `double` to binary32 (`float`), Ogre's default
`Ogre::Real`, on the finite range: round to nearest, ties to even, to 24
significant bits, with exponent at least -126 (subnormal numbers below).
Values that convert to an infinity are outside this definition. -/
def toBinary32 [FloorRing K] (x : K) : K :=
  let e := max (Int.log 2 |x|) (-126)
  let ulp : K := (2 : K) ^ (e - 23)
  (roundHalfEven (x / ulp) : K) * ulp

end FltArithmetic

/-! ## Example data -/

section Examples

variable {K : Type} [LinearOrderedField K]

/-- Example constants: three displays North = 0, West = 1, East = 2, each 2 m
wide and 1 m high, near 1, far 10, target period 1/60 s. -/
def exampleConstants : OgreConstants K :=
  ⟨3, 0, 1, 2, 2, 1, 1, 10, 1 / 60⟩

/-- Example application before setup: no geometry, cameras without a custom
projection matrix. -/
def exampleApp : OgreApplication K Unit :=
  ⟨fun i => ⟨i, 0, 0, false, ⟨0, 0, 0⟩, ⟨0, 0, 0⟩, ⟨0, 0, 0⟩⟩,
   fun _ => ⟨"", none⟩,
   ⟨⟨0, 0, 0⟩, (), ()⟩⟩

/-- Example stimulus: waitBefore = 1.0, activeDuration = 2.0, waitAfter = 0.5,
as constructed. -/
def exampleStimulus : CylinderBars K :=
  ⟨CylinderBarStates.Init, 0, 1, 2, 1 / 2, false⟩

/-- Example application before setup, in floating-point values: no geometry,
cameras without a custom projection matrix. -/
def exampleAppFlt : OgreApplication (Flt K) Unit :=
  ⟨fun i => ⟨i, 0, 0, false, ⟨Flt.fin 0, Flt.fin 0, Flt.fin 0⟩, ⟨Flt.fin 0, Flt.fin 0, Flt.fin 0⟩,
      ⟨Flt.fin 0, Flt.fin 0, Flt.fin 0⟩⟩,
   fun _ => ⟨"", none⟩,
   ⟨⟨Flt.fin 0, Flt.fin 0, Flt.fin 0⟩, (), ()⟩⟩

/-- Example clock: tick `i` reads `i / 10` seconds. -/
def exampleTick (i : Nat) : K :=
  (i : K) / 10

end Examples

/-! ## Lemmas on the display layout -/

section LayoutLemmas

variable {K : Type} [LinearOrderedField K]

omit [LinearOrderedField K] in
theorem Vector3.ext_iff3 (a b : Vector3 K) : a = b ↔ a.x = b.x ∧ a.y = b.y ∧ a.z = b.z := by
  cases a; cases b; simp

/-- The North monitor after defineMonitors. -/
theorem defineMonitors_North {Q : Type} (c : OgreConstants K) (app : OgreApplication K Q)
    (hNW : c.North ≠ c.West) (hNE : c.North ≠ c.East) :
    ((defineMonitors c app).mMonitors c.North).pa
        = ⟨-c.DisplayWidthMeters / 2, -c.DisplayHeightMeters / 2, -c.DisplayWidthMeters / 2⟩
    ∧ ((defineMonitors c app).mMonitors c.North).pb
        = ⟨c.DisplayWidthMeters / 2, -c.DisplayHeightMeters / 2, -c.DisplayWidthMeters / 2⟩
    ∧ ((defineMonitors c app).mMonitors c.North).pc
        = ⟨-c.DisplayWidthMeters / 2, c.DisplayHeightMeters / 2, -c.DisplayWidthMeters / 2⟩ := by
  refine ⟨?_, ?_, ?_⟩ <;>
    (simp only [defineMonitors, setAt, MonitorInfo.setPa, MonitorInfo.setPb, MonitorInfo.setPc,
      Vector3.add, if_true, if_neg hNW, if_neg hNE,
    Vector3.ext_iff3]
     try (refine ⟨?_, ?_, ?_⟩ <;> ring))

/-- The West monitor after defineMonitors. -/
theorem defineMonitors_West {Q : Type} (c : OgreConstants K) (app : OgreApplication K Q)
    (hWE : c.West ≠ c.East) :
    ((defineMonitors c app).mMonitors c.West).pa
        = ⟨-c.DisplayWidthMeters / 2, -c.DisplayHeightMeters / 2, c.DisplayWidthMeters / 2⟩
    ∧ ((defineMonitors c app).mMonitors c.West).pb
        = ⟨-c.DisplayWidthMeters / 2, -c.DisplayHeightMeters / 2, -c.DisplayWidthMeters / 2⟩
    ∧ ((defineMonitors c app).mMonitors c.West).pc
        = ⟨-c.DisplayWidthMeters / 2, c.DisplayHeightMeters / 2, c.DisplayWidthMeters / 2⟩ := by
  refine ⟨?_, ?_, ?_⟩ <;>
    (simp only [defineMonitors, setAt, MonitorInfo.setPa, MonitorInfo.setPb, MonitorInfo.setPc,
      Vector3.add, if_true, if_neg hWE,
    Vector3.ext_iff3]
     try (refine ⟨?_, ?_, ?_⟩ <;> ring))

/-- The East monitor after defineMonitors. -/
theorem defineMonitors_East {Q : Type} (c : OgreConstants K) (app : OgreApplication K Q) :
    ((defineMonitors c app).mMonitors c.East).pa
        = ⟨c.DisplayWidthMeters / 2, -c.DisplayHeightMeters / 2, -c.DisplayWidthMeters / 2⟩
    ∧ ((defineMonitors c app).mMonitors c.East).pb
        = ⟨c.DisplayWidthMeters / 2, -c.DisplayHeightMeters / 2, c.DisplayWidthMeters / 2⟩
    ∧ ((defineMonitors c app).mMonitors c.East).pc
        = ⟨c.DisplayWidthMeters / 2, c.DisplayHeightMeters / 2, -c.DisplayWidthMeters / 2⟩ := by
  refine ⟨?_, ?_, ?_⟩ <;>
    (simp only [defineMonitors, setAt, MonitorInfo.setPa, MonitorInfo.setPb, MonitorInfo.setPc,
      Vector3.add, if_true,
    Vector3.ext_iff3]
     try (refine ⟨?_, ?_, ?_⟩ <;> ring))

/-- An exact square root returns `a` on the square of a positive `a`. -/
theorem IsSqrt.sqrt_sq {sqrt : K → K} (h : IsSqrt sqrt) {a x : K} (ha : 0 < a)
    (hx : x = a * a) : sqrt x = a := by
  subst hx
  obtain ⟨h0, h1⟩ := h (a * a) (by positivity)
  have h2 : (sqrt (a * a) - a) * (sqrt (a * a) + a) = 0 := by
    have : (sqrt (a * a) - a) * (sqrt (a * a) + a) = sqrt (a * a) * sqrt (a * a) - a * a := by ring
    rw [this, h1, sub_self]
  rcases mul_eq_zero.mp h2 with h3 | h3
  · exact sub_eq_zero.mp h3
  · exfalso
    have : 0 < sqrt (a * a) + a := add_pos_of_nonneg_of_pos h0 ha
    exact absurd h3 (ne_of_gt this)

/-- Normalising a vector of length `a > 0` divides its components by `a`. -/
theorem Vector3.normalise_eq {sqrt : K → K} (h : IsSqrt sqrt) (v : Vector3 K) {a : K}
    (ha : 0 < a) (hv : v.x * v.x + v.y * v.y + v.z * v.z = a * a) :
    v.normalise sqrt = ⟨v.x / a, v.y / a, v.z / a⟩ := by
  have hs : sqrt (v.x * v.x + v.y * v.y + v.z * v.z) = a := h.sqrt_sq ha hv
  simp only [Vector3.normalise, hs, if_pos ha, Vector3.ext_iff3]
  refine ⟨?_, ?_, ?_⟩ <;> field_simp

/-- The unit vectors of a rectangular monitor with edge lengths `a` and `c`:
`vr` and `vu` are the edges divided by their lengths and `vn` is their cross
product, already of unit length. -/
theorem monitor_basis {sqrt : K → K} (h : IsSqrt sqrt) (mon : MonitorInfo K) {a c : K}
    (ha : 0 < a) (hc : 0 < c)
    (h1 : (mon.pb.sub mon.pa).dotProduct (mon.pb.sub mon.pa) = a * a)
    (h2 : (mon.pc.sub mon.pa).dotProduct (mon.pc.sub mon.pa) = c * c)
    (hp : (mon.pb.sub mon.pa).dotProduct (mon.pc.sub mon.pa) = 0) :
    monitorVr sqrt mon
        = ⟨(mon.pb.x - mon.pa.x) / a, (mon.pb.y - mon.pa.y) / a, (mon.pb.z - mon.pa.z) / a⟩
    ∧ monitorVu sqrt mon
        = ⟨(mon.pc.x - mon.pa.x) / c, (mon.pc.y - mon.pa.y) / c, (mon.pc.z - mon.pa.z) / c⟩
    ∧ monitorVn sqrt mon
        = (Vector3.mk ((mon.pb.x - mon.pa.x) / a) ((mon.pb.y - mon.pa.y) / a)
              ((mon.pb.z - mon.pa.z) / a)).crossProduct
            ⟨(mon.pc.x - mon.pa.x) / c, (mon.pc.y - mon.pa.y) / c, (mon.pc.z - mon.pa.z) / c⟩ := by
  have hr : monitorVr sqrt mon
      = ⟨(mon.pb.x - mon.pa.x) / a, (mon.pb.y - mon.pa.y) / a, (mon.pb.z - mon.pa.z) / a⟩ := by
    have := Vector3.normalise_eq h (mon.pb.sub mon.pa) ha (by simpa [Vector3.dotProduct] using h1)
    simpa [monitorVr, Vector3.sub] using this
  have hu : monitorVu sqrt mon
      = ⟨(mon.pc.x - mon.pa.x) / c, (mon.pc.y - mon.pa.y) / c, (mon.pc.z - mon.pa.z) / c⟩ := by
    have := Vector3.normalise_eq h (mon.pc.sub mon.pa) hc (by simpa [Vector3.dotProduct] using h2)
    simpa [monitorVu, Vector3.sub] using this
  refine ⟨hr, hu, ?_⟩
  simp only [Vector3.dotProduct, Vector3.sub] at h1 h2 hp
  rw [monitorVn, hr, hu]
  have h11 : (0 : K) < 1 := one_pos
  rw [Vector3.normalise_eq h _ h11]
  · simp [Vector3.crossProduct]
  · simp only [Vector3.crossProduct]
    have ha0 : a ≠ 0 := ne_of_gt ha
    have hc0 : c ≠ 0 := ne_of_gt hc
    field_simp
    linear_combination
      ((mon.pc.x - mon.pa.x) * (mon.pc.x - mon.pa.x) + (mon.pc.y - mon.pa.y) * (mon.pc.y - mon.pa.y)
        + (mon.pc.z - mon.pa.z) * (mon.pc.z - mon.pa.z)) * h1
      + a * a * h2
      - ((mon.pb.x - mon.pa.x) * (mon.pc.x - mon.pa.x) + (mon.pb.y - mon.pa.y) * (mon.pc.y - mon.pa.y)
        + (mon.pb.z - mon.pa.z) * (mon.pc.z - mon.pa.z)) * hp

end LayoutLemmas

/-! ## The unit vectors of the three monitors of the layout -/

section LayoutBasis

variable {K : Type} [LinearOrderedField K]

/-- A monitor with the corners of the North monitor has `vr = (1,0,0)`,
`vu = (0,1,0)` and `vn = (0,0,1)`. -/
theorem north_basis {sqrt : K → K} (h : IsSqrt sqrt) (mon : MonitorInfo K) {W H : K}
    (hW : 0 < W) (hH : 0 < H)
    (hpa : mon.pa = ⟨-W / 2, -H / 2, -W / 2⟩) (hpb : mon.pb = ⟨W / 2, -H / 2, -W / 2⟩)
    (hpc : mon.pc = ⟨-W / 2, H / 2, -W / 2⟩) :
    monitorVr sqrt mon = ⟨1, 0, 0⟩ ∧ monitorVu sqrt mon = ⟨0, 1, 0⟩
      ∧ monitorVn sqrt mon = ⟨0, 0, 1⟩ := by
  have hW0 : W ≠ 0 := ne_of_gt hW
  have hH0 : H ≠ 0 := ne_of_gt hH
  obtain ⟨hr, hu, hn⟩ := monitor_basis h mon hW hH
    (by simp only [hpa, hpb, Vector3.dotProduct, Vector3.sub]; ring)
    (by simp only [hpa, hpc, Vector3.dotProduct, Vector3.sub]; ring)
    (by simp only [hpa, hpb, hpc, Vector3.dotProduct, Vector3.sub]; ring)
  rw [hr, hu, hn]
  simp only [hpa, hpb, hpc, Vector3.crossProduct, Vector3.ext_iff3]
  refine ⟨⟨?_, ?_, ?_⟩, ⟨?_, ?_, ?_⟩, ⟨?_, ?_, ?_⟩⟩ <;> field_simp <;> ring

/-- A monitor with the corners of the West monitor has `vr = (0,0,-1)`,
`vu = (0,1,0)` and `vn = (1,0,0)`. -/
theorem west_basis {sqrt : K → K} (h : IsSqrt sqrt) (mon : MonitorInfo K) {W H : K}
    (hW : 0 < W) (hH : 0 < H)
    (hpa : mon.pa = ⟨-W / 2, -H / 2, W / 2⟩) (hpb : mon.pb = ⟨-W / 2, -H / 2, -W / 2⟩)
    (hpc : mon.pc = ⟨-W / 2, H / 2, W / 2⟩) :
    monitorVr sqrt mon = ⟨0, 0, -1⟩ ∧ monitorVu sqrt mon = ⟨0, 1, 0⟩
      ∧ monitorVn sqrt mon = ⟨1, 0, 0⟩ := by
  have hW0 : W ≠ 0 := ne_of_gt hW
  have hH0 : H ≠ 0 := ne_of_gt hH
  obtain ⟨hr, hu, hn⟩ := monitor_basis h mon hW hH
    (by simp only [hpa, hpb, Vector3.dotProduct, Vector3.sub]; ring)
    (by simp only [hpa, hpc, Vector3.dotProduct, Vector3.sub]; ring)
    (by simp only [hpa, hpb, hpc, Vector3.dotProduct, Vector3.sub]; ring)
  rw [hr, hu, hn]
  simp only [hpa, hpb, hpc, Vector3.crossProduct, Vector3.ext_iff3]
  refine ⟨⟨?_, ?_, ?_⟩, ⟨?_, ?_, ?_⟩, ⟨?_, ?_, ?_⟩⟩ <;> field_simp <;> ring

/-- A monitor with the corners of the East monitor has `vr = (0,0,1)`,
`vu = (0,1,0)` and `vn = (-1,0,0)`. -/
theorem east_basis {sqrt : K → K} (h : IsSqrt sqrt) (mon : MonitorInfo K) {W H : K}
    (hW : 0 < W) (hH : 0 < H)
    (hpa : mon.pa = ⟨W / 2, -H / 2, -W / 2⟩) (hpb : mon.pb = ⟨W / 2, -H / 2, W / 2⟩)
    (hpc : mon.pc = ⟨W / 2, H / 2, -W / 2⟩) :
    monitorVr sqrt mon = ⟨0, 0, 1⟩ ∧ monitorVu sqrt mon = ⟨0, 1, 0⟩
      ∧ monitorVn sqrt mon = ⟨-1, 0, 0⟩ := by
  have hW0 : W ≠ 0 := ne_of_gt hW
  have hH0 : H ≠ 0 := ne_of_gt hH
  obtain ⟨hr, hu, hn⟩ := monitor_basis h mon hW hH
    (by simp only [hpa, hpb, Vector3.dotProduct, Vector3.sub]; ring)
    (by simp only [hpa, hpc, Vector3.dotProduct, Vector3.sub]; ring)
    (by simp only [hpa, hpb, hpc, Vector3.dotProduct, Vector3.sub]; ring)
  rw [hr, hu, hn]
  simp only [hpa, hpb, hpc, Vector3.crossProduct, Vector3.ext_iff3]
  refine ⟨⟨?_, ?_, ?_⟩, ⟨?_, ?_, ?_⟩, ⟨?_, ?_, ?_⟩⟩ <;> field_simp <;> ring

/-- The screen distance and frustum extents for a monitor with the corners
of the North monitor. -/
theorem north_frustum {sqrt : K → K} (h : IsSqrt sqrt) (mon : MonitorInfo K) {W H : K}
    (hW : 0 < W) (hH : 0 < H)
    (hpa : mon.pa = ⟨-W / 2, -H / 2, -W / 2⟩) (hpb : mon.pb = ⟨W / 2, -H / 2, -W / 2⟩)
    (hpc : mon.pc = ⟨-W / 2, H / 2, -W / 2⟩) (n : K) (pe : Vector3 K) :
    screenDist sqrt mon pe = W / 2 + pe.z
    ∧ frustumL sqrt n mon pe = (-W / 2 - pe.x) * n / (W / 2 + pe.z)
    ∧ frustumR sqrt n mon pe = (W / 2 - pe.x) * n / (W / 2 + pe.z)
    ∧ frustumB sqrt n mon pe = (-H / 2 - pe.y) * n / (W / 2 + pe.z)
    ∧ frustumT sqrt n mon pe = (H / 2 - pe.y) * n / (W / 2 + pe.z) := by
  obtain ⟨hr, hu, hn⟩ := north_basis h mon hW hH hpa hpb hpc
  have hd : screenDist sqrt mon pe = W / 2 + pe.z := by
    simp only [screenDist, hn, hpa, Vector3.dotProduct, Vector3.sub]
    ring
  simp only [frustumL, frustumR, frustumB, frustumT, hd, hr, hu, hpa, hpb, hpc,
    Vector3.dotProduct, Vector3.sub]
  refine ⟨trivial, ?_, ?_, ?_, ?_⟩ <;> ring

/-- The screen distance and frustum extents for a monitor with the corners
of the West monitor. -/
theorem west_frustum {sqrt : K → K} (h : IsSqrt sqrt) (mon : MonitorInfo K) {W H : K}
    (hW : 0 < W) (hH : 0 < H)
    (hpa : mon.pa = ⟨-W / 2, -H / 2, W / 2⟩) (hpb : mon.pb = ⟨-W / 2, -H / 2, -W / 2⟩)
    (hpc : mon.pc = ⟨-W / 2, H / 2, W / 2⟩) (n : K) (pe : Vector3 K) :
    screenDist sqrt mon pe = W / 2 + pe.x
    ∧ frustumL sqrt n mon pe = (-W / 2 + pe.z) * n / (W / 2 + pe.x)
    ∧ frustumR sqrt n mon pe = (W / 2 + pe.z) * n / (W / 2 + pe.x)
    ∧ frustumB sqrt n mon pe = (-H / 2 - pe.y) * n / (W / 2 + pe.x)
    ∧ frustumT sqrt n mon pe = (H / 2 - pe.y) * n / (W / 2 + pe.x) := by
  obtain ⟨hr, hu, hn⟩ := west_basis h mon hW hH hpa hpb hpc
  have hd : screenDist sqrt mon pe = W / 2 + pe.x := by
    simp only [screenDist, hn, hpa, Vector3.dotProduct, Vector3.sub]
    ring
  simp only [frustumL, frustumR, frustumB, frustumT, hd, hr, hu, hpa, hpb, hpc,
    Vector3.dotProduct, Vector3.sub]
  refine ⟨trivial, ?_, ?_, ?_, ?_⟩ <;> ring

/-- The screen distance and frustum extents for a monitor with the corners
of the East monitor. -/
theorem east_frustum {sqrt : K → K} (h : IsSqrt sqrt) (mon : MonitorInfo K) {W H : K}
    (hW : 0 < W) (hH : 0 < H)
    (hpa : mon.pa = ⟨W / 2, -H / 2, -W / 2⟩) (hpb : mon.pb = ⟨W / 2, -H / 2, W / 2⟩)
    (hpc : mon.pc = ⟨W / 2, H / 2, -W / 2⟩) (n : K) (pe : Vector3 K) :
    screenDist sqrt mon pe = W / 2 - pe.x
    ∧ frustumL sqrt n mon pe = (-W / 2 - pe.z) * n / (W / 2 - pe.x)
    ∧ frustumR sqrt n mon pe = (W / 2 - pe.z) * n / (W / 2 - pe.x)
    ∧ frustumB sqrt n mon pe = (-H / 2 - pe.y) * n / (W / 2 - pe.x)
    ∧ frustumT sqrt n mon pe = (H / 2 - pe.y) * n / (W / 2 - pe.x) := by
  obtain ⟨hr, hu, hn⟩ := east_basis h mon hW hH hpa hpb hpc
  have hd : screenDist sqrt mon pe = W / 2 - pe.x := by
    simp only [screenDist, hn, hpa, Vector3.dotProduct, Vector3.sub]
    ring
  simp only [frustumL, frustumR, frustumB, frustumT, hd, hr, hu, hpa, hpb, hpc,
    Vector3.dotProduct, Vector3.sub]
  refine ⟨trivial, ?_, ?_, ?_, ?_⟩ <;> ring

/-- Extents of the given form are symmetric for an eye on the axis, with
the values of the symmetric frustum. -/
theorem centered_extents {W H n : K} (hW : 0 < W) :
    (-W / 2 - 0) * n / (W / 2 + 0) = -n ∧ (W / 2 - 0) * n / (W / 2 + 0) = n
    ∧ (-H / 2 - 0) * n / (W / 2 + 0) = -n * H / W
    ∧ (H / 2 - 0) * n / (W / 2 + 0) = n * H / W := by
  have hW0 : W ≠ 0 := ne_of_gt hW
  refine ⟨?_, ?_, ?_, ?_⟩ <;> field_simp <;> ring

end LayoutBasis

/-! ## Lemmas on updateProjMatrices -/

section CameraLemmas

variable {K Q : Type}

end CameraLemmas

section UpdateLemmas

variable {K : Type} [Zero K] [One K] [OfNat K 2] [Add K] [Sub K] [Mul K] [Div K] [Neg K]
  [LT K] [∀ a b : K, Decidable (a < b)] {Q : Type}

/-- The loop of updateProjMatrices after `n` rounds: the monitors and the
root node are as before, the cameras below `n` carry the matrix of their
monitor and the other cameras are as before. -/
theorem updateProj_fold (sqrt : K → K) (near far : K) (pe : Vector3 K)
    (app : OgreApplication K Q) (n : Nat) :
    ((List.range n).foldl
        (fun a i =>
          let offAxis := offAxis sqrt near far (a.mMonitors i) pe
          let cam := (a.mCameras i).setCustomProjectionMatrix offAxis
          { a with mCameras := setAt a.mCameras i cam })
        app)
      = { app with mCameras := fun i =>
            if i < n then
              (app.mCameras i).setCustomProjectionMatrix (offAxis sqrt near far (app.mMonitors i) pe)
            else app.mCameras i } := by
  induction n with
  | zero => simp
  | succ n ih =>
    rw [List.range_succ, List.foldl_append, ih]
    simp only [List.foldl_cons, List.foldl_nil, setAt, lt_irrefl, if_false]
    congr 1
    funext j
    by_cases hj : j = n
    · subst hj
      simp [setAt]
    · by_cases hlt : j < n
      · have : j < n + 1 := Nat.lt_succ_of_lt hlt
        simp [setAt, hj, hlt, this]
      · have : ¬ j < n + 1 := by omega
        simp [setAt, hj, hlt, this]

/-- The state after updateProjMatrices, in closed form. -/
theorem updateProjMatrices_eq (c : OgreConstants K) (sqrt : K → K) (toReal : K → K)
    (app : OgreApplication K Q) (x y z : K) :
    (updateProjMatrices c sqrt toReal app x y z).mMonitors = app.mMonitors
    ∧ (updateProjMatrices c sqrt toReal app x y z).rootNode = app.rootNode
    ∧ ∀ i, (updateProjMatrices c sqrt toReal app x y z).mCameras i
        = if i < c.DisplayCount then
            (app.mCameras i).setCustomProjectionMatrix
              (offAxis sqrt c.NearClipDist c.FarClipDist (app.mMonitors i)
                (eyeVector toReal x y z))
          else app.mCameras i := by
  simp only [updateProjMatrices]
  rw [updateProj_fold sqrt c.NearClipDist c.FarClipDist (eyeVector toReal x y z) app
    c.DisplayCount]
  exact ⟨rfl, rfl, fun _ => rfl⟩

end UpdateLemmas

/-! ## Lemmas on the projection matrix in exact arithmetic -/

section ClipLemmas

variable {K : Type} [LinearOrderedField K] {Q : Type}

end ClipLemmas

/-! ## The off-axis projection -/

section ProjectionTheorems

variable {K : Type} [LinearOrderedField K] {Q : Type}

/-- The real square root meets the contract of the square root. -/
theorem isSqrt_real : IsSqrt Real.sqrt :=
  fun x hx => ⟨Real.sqrt_nonneg x, Real.mul_self_sqrt hx⟩

/-- The matrix of a monitor depends on the monitor through its three corner
points only. -/
theorem offAxis_congr (sqrt : K → K) (n f : K) (m1 m2 : MonitorInfo K) (pe : Vector3 K)
    (ha : m1.pa = m2.pa) (hb : m1.pb = m2.pb) (hc : m1.pc = m2.pc) :
    offAxis sqrt n f m1 pe = offAxis sqrt n f m2 pe := by
  simp only [offAxis, frustumL, frustumR, frustumB, frustumT, screenDist, monitorVn,
    monitorVr, monitorVu, ha, hb, hc]

/-- C6: the three displays built by defineMonitors share their vertical
edges: the right edge of West (pb and pb + (pc - pa)) is the left edge of
North (pa and pc), and the right edge of North is the left edge of East. -/
theorem defineMonitors_shared_edges (c : OgreConstants K) (app : OgreApplication K Q)
    (hNW : c.North ≠ c.West) (hNE : c.North ≠ c.East) (hWE : c.West ≠ c.East) :
    ((defineMonitors c app).mMonitors c.West).pb = ((defineMonitors c app).mMonitors c.North).pa
    ∧ ((defineMonitors c app).mMonitors c.West).pb.add
          (((defineMonitors c app).mMonitors c.West).pc.sub
            ((defineMonitors c app).mMonitors c.West).pa)
        = ((defineMonitors c app).mMonitors c.North).pc
    ∧ ((defineMonitors c app).mMonitors c.North).pb = ((defineMonitors c app).mMonitors c.East).pa
    ∧ ((defineMonitors c app).mMonitors c.North).pb.add
          (((defineMonitors c app).mMonitors c.North).pc.sub
            ((defineMonitors c app).mMonitors c.North).pa)
        = ((defineMonitors c app).mMonitors c.East).pc := by
  obtain ⟨na, nb, nc⟩ := defineMonitors_North c app hNW hNE
  obtain ⟨wa, wb, wc⟩ := defineMonitors_West c app hWE
  obtain ⟨ea, eb, ec⟩ := defineMonitors_East c app
  rw [na, nb, nc, wa, wb, wc, ea, ec]
  simp only [Vector3.add, Vector3.sub, Vector3.ext_iff3]
  refine ⟨trivial, ⟨?_, ?_, ?_⟩, trivial, ⟨?_, ?_, ?_⟩⟩ <;> ring

/-- C5: for the layout built by defineMonitors with W > 0 and H > 0 and the
eye at the centre (0,0,0), the frustum extents of each of the three displays
are l = -n, r = n, b = -n*H/W, t = n*H/W, so l = -r and b = -t. -/
theorem defineMonitors_centered_frustum (c : OgreConstants K) (sqrt : K → K)
    (hsqrt : IsSqrt sqrt) (app : OgreApplication K Q)
    (hW : 0 < c.DisplayWidthMeters) (hH : 0 < c.DisplayHeightMeters)
    (hNW : c.North ≠ c.West) (hNE : c.North ≠ c.East) (hWE : c.West ≠ c.East)
    (i : Nat) (hi : i = c.North ∨ i = c.West ∨ i = c.East) :
    frustumL sqrt c.NearClipDist ((defineMonitors c app).mMonitors i) ⟨0, 0, 0⟩
        = -c.NearClipDist
    ∧ frustumR sqrt c.NearClipDist ((defineMonitors c app).mMonitors i) ⟨0, 0, 0⟩
        = c.NearClipDist
    ∧ frustumB sqrt c.NearClipDist ((defineMonitors c app).mMonitors i) ⟨0, 0, 0⟩
        = -c.NearClipDist * c.DisplayHeightMeters / c.DisplayWidthMeters
    ∧ frustumT sqrt c.NearClipDist ((defineMonitors c app).mMonitors i) ⟨0, 0, 0⟩
        = c.NearClipDist * c.DisplayHeightMeters / c.DisplayWidthMeters
    ∧ frustumL sqrt c.NearClipDist ((defineMonitors c app).mMonitors i) ⟨0, 0, 0⟩
        = -frustumR sqrt c.NearClipDist ((defineMonitors c app).mMonitors i) ⟨0, 0, 0⟩
    ∧ frustumB sqrt c.NearClipDist ((defineMonitors c app).mMonitors i) ⟨0, 0, 0⟩
        = -frustumT sqrt c.NearClipDist ((defineMonitors c app).mMonitors i) ⟨0, 0, 0⟩ := by
  have hW0 : c.DisplayWidthMeters ≠ 0 := ne_of_gt hW
  obtain ⟨e1, e2, e3, e4⟩ :=
    @centered_extents K _ c.DisplayWidthMeters c.DisplayHeightMeters c.NearClipDist hW
  have key : ∀ l r b t : K, l = -c.NearClipDist → r = c.NearClipDist
      → b = -c.NearClipDist * c.DisplayHeightMeters / c.DisplayWidthMeters
      → t = c.NearClipDist * c.DisplayHeightMeters / c.DisplayWidthMeters
      → l = -c.NearClipDist ∧ r = c.NearClipDist
        ∧ b = -c.NearClipDist * c.DisplayHeightMeters / c.DisplayWidthMeters
        ∧ t = c.NearClipDist * c.DisplayHeightMeters / c.DisplayWidthMeters
        ∧ l = -r ∧ b = -t := by
    intro l r b t hl hr hb ht
    refine ⟨hl, hr, hb, ht, ?_, ?_⟩
    · rw [hl, hr]
    · rw [hb, ht]; ring
  rcases hi with hi | hi | hi
  · subst hi
    obtain ⟨pa, pb, pc⟩ := defineMonitors_North c app hNW hNE
    obtain ⟨-, hl, hr, hb, ht⟩ := north_frustum hsqrt _ hW hH pa pb pc c.NearClipDist ⟨0, 0, 0⟩
    exact key _ _ _ _ (hl.trans e1) (hr.trans e2) (hb.trans e3) (ht.trans e4)
  · subst hi
    obtain ⟨pa, pb, pc⟩ := defineMonitors_West c app hWE
    obtain ⟨-, hl, hr, hb, ht⟩ := west_frustum hsqrt _ hW hH pa pb pc c.NearClipDist ⟨0, 0, 0⟩
    refine key _ _ _ _ (hl.trans ?_) (hr.trans ?_) (hb.trans e3) (ht.trans e4)
    · field_simp
      ring
    · field_simp
  · subst hi
    obtain ⟨pa, pb, pc⟩ := defineMonitors_East c app
    obtain ⟨-, hl, hr, hb, ht⟩ := east_frustum hsqrt _ hW hH pa pb pc c.NearClipDist ⟨0, 0, 0⟩
    refine key _ _ _ _ (hl.trans ?_) (hr.trans ?_) (hb.trans ?_) (ht.trans ?_) <;>
      field_simp <;> ring

/-- C8: the matrices installed by updateProjMatrices(x, y, z) are a function
of the eye position, the corner points pa/pb/pc and the near/far distances
only (with the fixed conversion `toReal` of the eye coordinates): from two application states whose displays have the same corner
points, whatever their cameras carried before, the call installs the same
matrix on each display's camera, and it leaves the display geometry of each
state unchanged. -/
theorem updateProjMatrices_pure (c : OgreConstants K) (sqrt : K → K) (toReal : K → K)
    (app1 app2 : OgreApplication K Q) (x y z : K)
    (hgeo : ∀ i, i < c.DisplayCount →
      (app1.mMonitors i).pa = (app2.mMonitors i).pa
      ∧ (app1.mMonitors i).pb = (app2.mMonitors i).pb
      ∧ (app1.mMonitors i).pc = (app2.mMonitors i).pc) :
    (∀ i, i < c.DisplayCount →
      ((updateProjMatrices c sqrt toReal app1 x y z).mCameras i).customProjMatrix
          = some (offAxis sqrt c.NearClipDist c.FarClipDist (app1.mMonitors i)
              (eyeVector toReal x y z))
      ∧ ((updateProjMatrices c sqrt toReal app1 x y z).mCameras i).customProjMatrix
          = ((updateProjMatrices c sqrt toReal app2 x y z).mCameras i).customProjMatrix)
    ∧ (updateProjMatrices c sqrt toReal app1 x y z).mMonitors = app1.mMonitors
    ∧ (updateProjMatrices c sqrt toReal app2 x y z).mMonitors = app2.mMonitors := by
  obtain ⟨hm1, -, hc1⟩ := updateProjMatrices_eq c sqrt toReal app1 x y z
  obtain ⟨hm2, -, hc2⟩ := updateProjMatrices_eq c sqrt toReal app2 x y z
  refine ⟨?_, hm1, hm2⟩
  intro i hi
  obtain ⟨ha, hb, hc⟩ := hgeo i hi
  rw [hc1 i, hc2 i, if_pos hi, if_pos hi]
  refine ⟨rfl, ?_⟩
  simp only [Camera.setCustomProjectionMatrix]
  rw [offAxis_congr sqrt _ _ _ _ _ ha hb hc]

end ProjectionTheorems

/-! ## Lemmas on IEEE special values -/

section FltLemmas

variable {K : Type} [LinearOrderedField K]

theorem Flt.add_def (a b : Flt K) : a + b = Flt.add a b := rfl

theorem Flt.sub_def (a b : Flt K) : a - b = Flt.add a (Flt.neg b) := rfl

theorem Flt.mul_def (a b : Flt K) : a * b = Flt.mul a b := rfl

theorem Flt.div_def (a b : Flt K) : a / b = Flt.div a b := rfl

theorem Flt.neg_def (a : Flt K) : -a = Flt.neg a := rfl

theorem Flt.lt_def (a b : Flt K) : a < b ↔ Flt.ltb a b = true := Iff.rfl

theorem Flt.zero_def : (0 : Flt K) = Flt.fin 0 := rfl

theorem Flt.one_def : (1 : Flt K) = Flt.fin 1 := rfl

theorem Flt.two_def : (2 : Flt K) = Flt.fin 2 := rfl

/-- NaN absorbs addition on the left. -/
theorem Flt.nan_add (a : Flt K) : Flt.nan + a = Flt.nan := by
  cases a <;> rfl

/-- NaN absorbs addition on the right. -/
theorem Flt.add_nan (a : Flt K) : a + Flt.nan = Flt.nan := by
  cases a <;> rfl

/-- NaN absorbs multiplication on the left. -/
theorem Flt.nan_mul (a : Flt K) : Flt.nan * a = Flt.nan := by
  cases a <;> rfl

/-- NaN absorbs multiplication on the right. -/
theorem Flt.mul_nan (a : Flt K) : a * Flt.nan = Flt.nan := by
  cases a <;> rfl

/-- A quotient by a zero is an infinity or NaN, whatever the numerator. -/
theorem Flt.div_zero_special (x d : Flt K) (hd : d.isZero = true) :
    (x / d).isSpecial = true := by
  cases x <;> cases d <;>
    simp only [Flt.isZero, decide_eq_true_eq] at hd <;>
    simp only [Flt.div_def, Flt.div, Flt.isSpecial] <;>
    (try subst hd) <;> (try split_ifs) <;> simp_all [Flt.isSpecial]

/-- For two extents that are infinities or NaN, `(r + l) / (r - l)` is NaN. -/
theorem Flt.special_ratio_nan (l r : Flt K) (hl : l.isSpecial = true)
    (hr : r.isSpecial = true) : (r + l) / (r - l) = Flt.nan := by
  cases l <;> cases r <;> simp only [Flt.isSpecial] at hl hr <;>
    first
    | exact absurd hl (by decide)
    | exact absurd hr (by decide)
    | rfl
    | (rename_i s t
       cases s <;> cases t <;> rfl)

end FltLemmas

section SpecialProjection

variable {K : Type} [LinearOrderedField K] {Q : Type}

/-- When the screen distance `d` computed for a monitor is a zero, the four
extents are infinities or NaN and the first two rows of `offAxis` are NaN. -/
theorem offAxis_rows_nan (sqrt : Flt K → Flt K) (n f : Flt K) (mon : MonitorInfo (Flt K))
    (pe : Vector3 (Flt K)) (hd : (screenDist sqrt mon pe).isZero = true) :
    ((frustumL sqrt n mon pe).isSpecial = true ∧ (frustumR sqrt n mon pe).isSpecial = true
      ∧ (frustumB sqrt n mon pe).isSpecial = true ∧ (frustumT sqrt n mon pe).isSpecial = true)
    ∧ ((offAxis sqrt n f mon pe).m00 = Flt.nan ∧ (offAxis sqrt n f mon pe).m01 = Flt.nan
      ∧ (offAxis sqrt n f mon pe).m02 = Flt.nan ∧ (offAxis sqrt n f mon pe).m03 = Flt.nan)
    ∧ ((offAxis sqrt n f mon pe).m10 = Flt.nan ∧ (offAxis sqrt n f mon pe).m11 = Flt.nan
      ∧ (offAxis sqrt n f mon pe).m12 = Flt.nan ∧ (offAxis sqrt n f mon pe).m13 = Flt.nan) := by
  have hl : (frustumL sqrt n mon pe).isSpecial = true := Flt.div_zero_special _ _ hd
  have hr : (frustumR sqrt n mon pe).isSpecial = true := Flt.div_zero_special _ _ hd
  have hb : (frustumB sqrt n mon pe).isSpecial = true := Flt.div_zero_special _ _ hd
  have ht : (frustumT sqrt n mon pe).isSpecial = true := Flt.div_zero_special _ _ hd
  have h02 := Flt.special_ratio_nan _ _ hl hr
  have h12 := Flt.special_ratio_nan _ _ hb ht
  refine ⟨⟨hl, hr, hb, ht⟩, ?_, ?_⟩
  · simp only [offAxis, Matrix4.mul, Matrix4.transpose, projP, rotM, transT, h02,
      Flt.nan_add, Flt.add_nan, Flt.nan_mul, Flt.mul_nan, and_self]
  · simp only [offAxis, Matrix4.mul, Matrix4.transpose, projP, rotM, transT, h12,
      Flt.nan_add, Flt.add_nan, Flt.nan_mul, Flt.mul_nan, and_self]

/-- C2, as the code behaves: for every eye position updateProjMatrices
rejects nothing and installs on the camera of every display the matrix
`offAxis` computed from that eye position; when the eye lies in the plane of
the display (the computed d is +0 or -0) the extents l, r, b, t are infinities
or NaN and the first two rows of the installed matrix are NaN. -/
theorem updateProjMatrices_in_plane_installs (c : OgreConstants (Flt K))
    (sqrt : Flt K → Flt K) (toReal : Flt K → Flt K) (app : OgreApplication (Flt K) Q)
    (x y z : Flt K) (i : Nat) (hi : i < c.DisplayCount) :
    ((updateProjMatrices c sqrt toReal app x y z).mCameras i).customProjMatrix
        = some (offAxis sqrt c.NearClipDist c.FarClipDist (app.mMonitors i)
            (eyeVector toReal x y z))
    ∧ ((screenDist sqrt (app.mMonitors i) (eyeVector toReal x y z)).isZero = true →
        ((frustumL sqrt c.NearClipDist (app.mMonitors i)
              (eyeVector toReal x y z)).isSpecial = true
          ∧ (frustumR sqrt c.NearClipDist (app.mMonitors i)
              (eyeVector toReal x y z)).isSpecial = true
          ∧ (frustumB sqrt c.NearClipDist (app.mMonitors i)
              (eyeVector toReal x y z)).isSpecial = true
          ∧ (frustumT sqrt c.NearClipDist (app.mMonitors i)
              (eyeVector toReal x y z)).isSpecial = true)
        ∧ ∃ A : Matrix4 (Flt K),
            ((updateProjMatrices c sqrt toReal app x y z).mCameras i).customProjMatrix = some A
            ∧ (A.m00 = Flt.nan ∧ A.m01 = Flt.nan ∧ A.m02 = Flt.nan ∧ A.m03 = Flt.nan)
            ∧ (A.m10 = Flt.nan ∧ A.m11 = Flt.nan ∧ A.m12 = Flt.nan ∧ A.m13 = Flt.nan)) := by
  obtain ⟨-, -, hcam⟩ := updateProjMatrices_eq c sqrt toReal app x y z
  have hinst : ((updateProjMatrices c sqrt toReal app x y z).mCameras i).customProjMatrix
      = some (offAxis sqrt c.NearClipDist c.FarClipDist (app.mMonitors i)
          (eyeVector toReal x y z)) := by
    rw [hcam i, if_pos hi]
    rfl
  refine ⟨hinst, fun hd => ?_⟩
  obtain ⟨hext, h0, h1⟩ := offAxis_rows_nan sqrt c.NearClipDist c.FarClipDist
    (app.mMonitors i) (eyeVector toReal x y z) hd
  exact ⟨hext, _, hinst, h0, h1⟩

end SpecialProjection

/-! ## The render loop -/

section LoopTheorems

variable {K : Type} [LinearOrderedField K] {Q S : Type}

/-- C3: at the end of a tick, a slow-frame line is printed and no sleep is
performed if and only if stop - start >= TargetLoopDuration (equality counts
as slow); otherwise nothing is printed and the thread sleeps until
start + TargetLoopDuration, a deadline that does not depend on the stop
time. -/
theorem GraphicsThread_pace_decision (c : OgreConstants K) (loopStart loopStop : K) :
    (((GraphicsThread.pace c loopStart loopStop).slowFrame ≠ none
        ∧ (GraphicsThread.pace c loopStart loopStop).sleepUntil = none)
      ↔ loopStop - loopStart ≥ c.TargetLoopDuration)
    ∧ (loopStop - loopStart ≥ c.TargetLoopDuration →
        GraphicsThread.pace c loopStart loopStop = ⟨some (loopStop - loopStart), none⟩)
    ∧ (¬ loopStop - loopStart ≥ c.TargetLoopDuration →
        GraphicsThread.pace c loopStart loopStop
          = ⟨none, some (loopStart + c.TargetLoopDuration)⟩)
    ∧ (∀ loopStop' : K, ¬ loopStop - loopStart ≥ c.TargetLoopDuration
        → ¬ loopStop' - loopStart ≥ c.TargetLoopDuration
        → GraphicsThread.pace c loopStart loopStop' = GraphicsThread.pace c loopStart loopStop) := by
  refine ⟨?_, ?_, ?_, ?_⟩
  · by_cases h : loopStop - loopStart ≥ c.TargetLoopDuration
    · simp [GraphicsThread.pace, h]
    · simp [GraphicsThread.pace, h]
  · intro h
    simp [GraphicsThread.pace, h]
  · intro h
    simp only [GraphicsThread.pace, if_neg h]
  · intro loopStop' h h'
    simp only [GraphicsThread.pace, if_neg h, if_neg h']

/-- C4: one iteration of the loop issues, from the single copy of the two
poses taken at its start, exactly the calls: pose copy, stimulus update,
setRootPos(real.xyz - virt.xyz), setRootRot(real - virt for pitch, yaw, roll),
updateProjMatrices(real.x, real.y, real.z), renderOneFrame, in this order; and
the application state is the result of these methods applied in this order to
the state the stimulus update left, whatever the stimulus update did to the
stored poses. -/
theorem GraphicsThread_body_calls (c : OgreConstants K) (sqrt : K → K) (toReal : K → K)
    (ops : NodeOps K Q)
    (stimUpdate : World K Q S → World K Q S) (w : World K Q S) (calls : List (Call K)) :
    (GraphicsThread.body c sqrt toReal ops stimUpdate w calls).2
      = calls ++
        [Call.readPoses w.g_realPose w.g_virtPose,
         Call.stimUpdate,
         Call.setRootPos (w.g_realPose.x - w.g_virtPose.x) (w.g_realPose.y - w.g_virtPose.y)
           (w.g_realPose.z - w.g_virtPose.z),
         Call.setRootRot (w.g_realPose.pitch - w.g_virtPose.pitch)
           (w.g_realPose.yaw - w.g_virtPose.yaw) (w.g_realPose.roll - w.g_virtPose.roll),
         Call.updateProjMatrices w.g_realPose.x w.g_realPose.y w.g_realPose.z,
         Call.renderOneFrame]
    ∧ (GraphicsThread.body c sqrt toReal ops stimUpdate w calls).1.app
      = renderOneFrame
          (updateProjMatrices c sqrt toReal
            (setRootRot ops
              (setRootPos toReal (stimUpdate w).app
                (w.g_realPose.x - w.g_virtPose.x) (w.g_realPose.y - w.g_virtPose.y)
                (w.g_realPose.z - w.g_virtPose.z))
              (w.g_realPose.pitch - w.g_virtPose.pitch)
              (w.g_realPose.yaw - w.g_virtPose.yaw) (w.g_realPose.roll - w.g_virtPose.roll))
            w.g_realPose.x w.g_realPose.y w.g_realPose.z) := by
  constructor
  · simp [GraphicsThread.body]
  · simp [GraphicsThread.body]

omit [LinearOrderedField K] in
/-- C7: after setRootRot the root has the initial orientation followed by
the pitch, then the yaw, then the roll rotation; the result does not depend
on the orientation before the call, and a second call with the same
arguments changes nothing. -/
theorem setRootRot_absolute (ops : NodeOps K Q) (app : OgreApplication K Q)
    (pitch yaw roll : K) (q : Q) :
    (setRootRot ops app pitch yaw roll).rootNode.mOrientation
      = ops.roll roll (ops.yaw yaw (ops.pitch pitch
          (ops.setOrientation app.rootNode.mInitialOrientation)))
    ∧ setRootRot ops
        { app with rootNode :=
            { mPosition := app.rootNode.mPosition, mOrientation := q,
              mInitialOrientation := app.rootNode.mInitialOrientation } }
        pitch yaw roll
      = setRootRot ops app pitch yaw roll
    ∧ setRootRot ops (setRootRot ops app pitch yaw roll) pitch yaw roll
      = setRootRot ops app pitch yaw roll := by
  refine ⟨rfl, rfl, rfl⟩

end LoopTheorems

/-! ## The stimulus phase machine -/

section StimulusTheorems

variable {K : Type} [LinearOrderedField K]

/-- An update never changes the three durations. -/
theorem CylinderBars.Update_durations (s : CylinderBars K) (now : K) :
    (s.Update now).waitBefore = s.waitBefore
    ∧ (s.Update now).activeDuration = s.activeDuration
    ∧ (s.Update now).waitAfter = s.waitAfter := by
  unfold CylinderBars.Update
  cases s.currentState <;> simp only [] <;> (try split_ifs) <;> simp

/-- The durations along a run are those of the start. -/
theorem CylinderBars.after_durations (s0 : CylinderBars K) (tick : Nat → K) (k : Nat) :
    (CylinderBars.after s0 tick k).waitBefore = s0.waitBefore
    ∧ (CylinderBars.after s0 tick k).activeDuration = s0.activeDuration
    ∧ (CylinderBars.after s0 tick k).waitAfter = s0.waitAfter := by
  induction k with
  | zero => exact ⟨rfl, rfl, rfl⟩
  | succ k ih =>
    obtain ⟨h1, h2, h3⟩ := CylinderBars.Update_durations (CylinderBars.after s0 tick k) (tick k)
    simp only [CylinderBars.after]
    exact ⟨h1.trans ih.1, h2.trans ih.2.1, h3.trans ih.2.2⟩

/-- The duration of a phase along a run is that of the start. -/
theorem CylinderBars.after_duration (s0 : CylinderBars K) (tick : Nat → K) (k : Nat)
    (P : CylinderBarStates) :
    (CylinderBars.after s0 tick k).duration P = s0.duration P := by
  obtain ⟨h1, h2, h3⟩ := CylinderBars.after_durations s0 tick k
  cases P <;> simp [CylinderBars.duration, h1, h2, h3]

/-- One update leaves the phase or moves it to the next one. -/
theorem CylinderBars.Update_rank (s : CylinderBars K) (now : K) :
    (s.Update now).currentState.rank = s.currentState.rank
    ∨ (s.Update now).currentState.rank = s.currentState.rank + 1 := by
  unfold CylinderBars.Update
  rcases hs : s.currentState <;> simp only [] <;> (try split_ifs) <;>
    simp [CylinderBarStates.rank, hs]

/-- Completion is signalled in `WaitAfter` only. -/
theorem CylinderBars.Update_done (s : CylinderBars K) (now : K)
    (h : s.isDone = true → s.currentState = CylinderBarStates.WaitAfter) :
    (s.Update now).isDone = true → (s.Update now).currentState = CylinderBarStates.WaitAfter := by
  unfold CylinderBars.Update
  rcases hs : s.currentState <;> simp only [] <;> (try split_ifs) <;> simp_all

/-- Along a run from a stimulus that is not done, completion is signalled in
`WaitAfter` only. -/
theorem CylinderBars.after_done (s0 : CylinderBars K) (tick : Nat → K)
    (hd : s0.isDone = false) (k : Nat) :
    (CylinderBars.after s0 tick k).isDone = true
      → (CylinderBars.after s0 tick k).currentState = CylinderBarStates.WaitAfter := by
  induction k with
  | zero =>
    intro h
    simp only [CylinderBars.after] at h
    rw [hd] at h
    exact absurd h (by decide)
  | succ k ih => exact CylinderBars.Update_done _ _ ih

/-- An update that enters a phase other than `Init` stamps the time of the
call and does not signal completion. -/
theorem CylinderBars.Update_enter (s : CylinderBars K) (now : K) (P : CylinderBarStates)
    (hinv : s.isDone = true → s.currentState = CylinderBarStates.WaitAfter)
    (h1 : s.currentState ≠ P) (h2 : (s.Update now).currentState = P) :
    (s.Update now).lastTime = now ∧ (s.Update now).isDone = false := by
  unfold CylinderBars.Update at h2 ⊢
  rcases hs : s.currentState <;> rw [hs] at h2 hinv h1 <;> simp only [] at h2 ⊢ <;>
    (try split_ifs at h2 ⊢) <;> simp_all

/-- An update before the duration of the phase has elapsed changes nothing. -/
theorem CylinderBars.Update_stay (s : CylinderBars K) (now : K)
    (hP : s.currentState ≠ CylinderBarStates.Init)
    (h : now - s.lastTime < s.duration s.currentState) : s.Update now = s := by
  unfold CylinderBars.Update
  rcases hs : s.currentState <;> rw [hs] at h hP <;>
    simp only [CylinderBars.duration] at h ⊢
  · exact absurd rfl hP
  · rw [if_neg (not_le.mpr h)]
  · rw [if_neg (not_le.mpr h)]
  · rw [if_neg (not_le.mpr h)]

/-- While the duration of the phase entered at tick `j` has not elapsed at
any tick before `k`, the stimulus is as it was right after tick `j`. -/
theorem CylinderBars.after_frozen (s0 : CylinderBars K) (tick : Nat → K)
    (hd : s0.isDone = false) (j : Nat) (P : CylinderBarStates)
    (hP : P ≠ CylinderBarStates.Init)
    (h1 : (CylinderBars.after s0 tick j).currentState ≠ P)
    (h2 : (CylinderBars.after s0 tick (j + 1)).currentState = P) (n : Nat)
    (hlt : ∀ i, j < i → i < j + 1 + n → tick i - tick j < s0.duration P) :
    CylinderBars.after s0 tick (j + 1 + n) = CylinderBars.after s0 tick (j + 1) := by
  induction n with
  | zero => rfl
  | succ n ih =>
    have ih' := ih (fun i hi1 hi2 => hlt i hi1 (by omega))
    have hstep : CylinderBars.after s0 tick (j + 1 + (n + 1))
        = (CylinderBars.after s0 tick (j + 1 + n)).Update (tick (j + 1 + n)) := rfl
    rw [hstep, ih']
    have hent := CylinderBars.Update_enter (CylinderBars.after s0 tick j) (tick j) P
      (CylinderBars.after_done s0 tick hd j) h1 h2
    have hlast : (CylinderBars.after s0 tick (j + 1)).lastTime = tick j := hent.1
    apply CylinderBars.Update_stay
    · rw [h2]; exact hP
    · rw [h2, hlast, CylinderBars.after_duration]
      exact hlt (j + 1 + n) (by omega) (by omega)

/-- C9: driven by successive updates, a stimulus that starts in `Init` moves
to `WaitBefore` on the first update; every update leaves the phase or moves
it to the next one in the order Init, WaitBefore, Active, WaitAfter; and a
phase entered at tick `j` is left (WaitBefore to Active, Active to WaitAfter)
or, for WaitAfter, completion is signalled, exactly at the first later tick
`k` whose clock reading is at least the phase's duration after that of tick
`j`. -/
theorem CylinderBars_phase_order (s0 : CylinderBars K) (tick : Nat → K)
    (h0 : s0.currentState = CylinderBarStates.Init) (hd : s0.isDone = false) :
    ((CylinderBars.after s0 tick 1).currentState = CylinderBarStates.WaitBefore
      ∧ (CylinderBars.after s0 tick 1).lastTime = tick 0
      ∧ (CylinderBars.after s0 tick 1).isDone = false)
    ∧ (∀ k, (CylinderBars.after s0 tick (k + 1)).currentState.rank
          = (CylinderBars.after s0 tick k).currentState.rank
        ∨ (CylinderBars.after s0 tick (k + 1)).currentState.rank
          = (CylinderBars.after s0 tick k).currentState.rank + 1)
    ∧ (∀ j k P, j < k → P ≠ CylinderBarStates.Init
        → (CylinderBars.after s0 tick j).currentState ≠ P
        → (CylinderBars.after s0 tick (j + 1)).currentState = P
        → (∀ i, j < i → i < k → tick i - tick j < s0.duration P)
        → (CylinderBars.after s0 tick k).currentState = P
          ∧ (CylinderBars.after s0 tick k).isDone = false
          ∧ (CylinderBars.after s0 tick k).lastTime = tick j
          ∧ (tick k - tick j < s0.duration P
              → CylinderBars.after s0 tick (k + 1) = CylinderBars.after s0 tick k)
          ∧ (tick k - tick j ≥ s0.duration P →
              (P = CylinderBarStates.WaitBefore →
                (CylinderBars.after s0 tick (k + 1)).currentState = CylinderBarStates.Active
                ∧ (CylinderBars.after s0 tick (k + 1)).isDone = false)
              ∧ (P = CylinderBarStates.Active →
                (CylinderBars.after s0 tick (k + 1)).currentState = CylinderBarStates.WaitAfter
                ∧ (CylinderBars.after s0 tick (k + 1)).isDone = false)
              ∧ (P = CylinderBarStates.WaitAfter →
                (CylinderBars.after s0 tick (k + 1)).currentState = CylinderBarStates.WaitAfter
                ∧ (CylinderBars.after s0 tick (k + 1)).isDone = true))) := by
  refine ⟨?_, ?_, ?_⟩
  · simp [CylinderBars.after, CylinderBars.Update, h0, hd]
  · intro k
    exact CylinderBars.Update_rank _ _
  · intro j k P hjk hP h1 h2 hlt
    obtain ⟨n, rfl⟩ : ∃ n, k = j + 1 + n := ⟨k - (j + 1), by omega⟩
    have hfr := CylinderBars.after_frozen s0 tick hd j P hP h1 h2 n hlt
    have hent := CylinderBars.Update_enter (CylinderBars.after s0 tick j) (tick j) P
      (CylinderBars.after_done s0 tick hd j) h1 h2
    have hlast : (CylinderBars.after s0 tick (j + 1)).lastTime = tick j := hent.1
    have hdone : (CylinderBars.after s0 tick (j + 1)).isDone = false := hent.2
    have hstep : CylinderBars.after s0 tick (j + 1 + n + 1)
        = (CylinderBars.after s0 tick (j + 1 + n)).Update (tick (j + 1 + n)) := rfl
    obtain ⟨d1, d2, d3⟩ := CylinderBars.after_durations s0 tick (j + 1)
    rw [hstep, hfr]
    refine ⟨h2, hdone, hlast, ?_, ?_⟩
    · intro hlt'
      apply CylinderBars.Update_stay
      · rw [h2]; exact hP
      · rw [h2, hlast, CylinderBars.after_duration]
        exact hlt'
    · intro hge
      refine ⟨?_, ?_, ?_⟩
      · intro hPe
        subst hPe
        have hge' : tick (j + 1 + n) - (CylinderBars.after s0 tick (j + 1)).lastTime
            ≥ (CylinderBars.after s0 tick (j + 1)).waitBefore := by
          rw [hlast, d1]; exact hge
        simp only [CylinderBars.Update, h2, if_pos hge']
        exact ⟨trivial, hdone⟩
      · intro hPe
        subst hPe
        have hge' : tick (j + 1 + n) - (CylinderBars.after s0 tick (j + 1)).lastTime
            ≥ (CylinderBars.after s0 tick (j + 1)).activeDuration := by
          rw [hlast, d2]; exact hge
        simp only [CylinderBars.Update, h2, if_pos hge']
        exact ⟨trivial, hdone⟩
      · intro hPe
        subst hPe
        have hge' : tick (j + 1 + n) - (CylinderBars.after s0 tick (j + 1)).lastTime
            ≥ (CylinderBars.after s0 tick (j + 1)).waitAfter := by
          rw [hlast, d3]; exact hge
        simp only [CylinderBars.Update, h2, if_pos hge']
        exact ⟨trivial, trivial⟩

end StimulusTheorems

/-! ## The theorems at example data -/

section Witnesses

/-- The square root of 4. -/
theorem real_sqrt_four : Real.sqrt 4 = 2 := by
  rw [show (4 : ℝ) = 2 * 2 by norm_num]
  exact Real.sqrt_mul_self (by norm_num)

/-- The screen distance and the extents that the code computes for the North
display of the example layout and the eye (0, 0, -1), in the plane of that
display: d = -0, l = +inf, r = -inf, b = +inf, t = -inf. -/
theorem example_on_plane_values :
    screenDist (Flt.sqrt Real.sqrt)
        ((defineMonitors (@exampleConstants ℝ _).toFlt exampleAppFlt).mMonitors
          (@exampleConstants ℝ _).toFlt.North)
        (eyeVector id (Flt.fin 0) (Flt.fin 0) (Flt.fin (-1))) = Flt.negZero
    ∧ frustumL (Flt.sqrt Real.sqrt) (@exampleConstants ℝ _).toFlt.NearClipDist
        ((defineMonitors (@exampleConstants ℝ _).toFlt exampleAppFlt).mMonitors
          (@exampleConstants ℝ _).toFlt.North)
        (eyeVector id (Flt.fin 0) (Flt.fin 0) (Flt.fin (-1))) = Flt.inf false
    ∧ frustumR (Flt.sqrt Real.sqrt) (@exampleConstants ℝ _).toFlt.NearClipDist
        ((defineMonitors (@exampleConstants ℝ _).toFlt exampleAppFlt).mMonitors
          (@exampleConstants ℝ _).toFlt.North)
        (eyeVector id (Flt.fin 0) (Flt.fin 0) (Flt.fin (-1))) = Flt.inf true
    ∧ frustumB (Flt.sqrt Real.sqrt) (@exampleConstants ℝ _).toFlt.NearClipDist
        ((defineMonitors (@exampleConstants ℝ _).toFlt exampleAppFlt).mMonitors
          (@exampleConstants ℝ _).toFlt.North)
        (eyeVector id (Flt.fin 0) (Flt.fin 0) (Flt.fin (-1))) = Flt.inf false
    ∧ frustumT (Flt.sqrt Real.sqrt) (@exampleConstants ℝ _).toFlt.NearClipDist
        ((defineMonitors (@exampleConstants ℝ _).toFlt exampleAppFlt).mMonitors
          (@exampleConstants ℝ _).toFlt.North)
        (eyeVector id (Flt.fin 0) (Flt.fin 0) (Flt.fin (-1))) = Flt.inf true := by
  refine ⟨?_, ?_, ?_, ?_, ?_⟩ <;>
    norm_num [frustumL, frustumR, frustumB, frustumT, screenDist, monitorVn, monitorVr,
      monitorVu, Vector3.normalise, Vector3.crossProduct, Vector3.dotProduct, Vector3.sub,
      Vector3.add, eyeVector, defineMonitors, setAt, MonitorInfo.setPa, MonitorInfo.setPb,
      MonitorInfo.setPc, exampleConstants, OgreConstants.toFlt, exampleAppFlt, Flt.add_def,
      Flt.sub_def, Flt.mul_def, Flt.div_def, Flt.neg_def, Flt.zero_def, Flt.one_def,
      Flt.two_def, Flt.lt_def, Flt.add, Flt.neg, Flt.mul, Flt.div, Flt.sqrt, Flt.ltb,
      Flt.zero, Flt.val, real_sqrt_four]

/-- C2 fails on the code: with the eye at (0, 0, -1), in the plane of the
North display of the example layout, updateProjMatrices does not reject: it
computes d = -0, l = +inf and r = -inf, and the camera of North, which carried
no custom matrix, carries after the call a matrix whose first two rows are
NaN. -/
theorem updateProjMatrices_on_plane_installs :
    screenDist (Flt.sqrt Real.sqrt)
        ((defineMonitors (@exampleConstants ℝ _).toFlt exampleAppFlt).mMonitors
          (@exampleConstants ℝ _).toFlt.North)
        (eyeVector id (Flt.fin 0) (Flt.fin 0) (Flt.fin (-1))) = Flt.negZero
    ∧ frustumL (Flt.sqrt Real.sqrt) (@exampleConstants ℝ _).toFlt.NearClipDist
        ((defineMonitors (@exampleConstants ℝ _).toFlt exampleAppFlt).mMonitors
          (@exampleConstants ℝ _).toFlt.North)
        (eyeVector id (Flt.fin 0) (Flt.fin 0) (Flt.fin (-1))) = Flt.inf false
    ∧ frustumR (Flt.sqrt Real.sqrt) (@exampleConstants ℝ _).toFlt.NearClipDist
        ((defineMonitors (@exampleConstants ℝ _).toFlt exampleAppFlt).mMonitors
          (@exampleConstants ℝ _).toFlt.North)
        (eyeVector id (Flt.fin 0) (Flt.fin 0) (Flt.fin (-1))) = Flt.inf true
    ∧ ((defineMonitors (@exampleConstants ℝ _).toFlt exampleAppFlt).mCameras
          (@exampleConstants ℝ _).toFlt.North).customProjMatrix = none
    ∧ ∃ A : Matrix4 (Flt ℝ),
        ((updateProjMatrices (@exampleConstants ℝ _).toFlt (Flt.sqrt Real.sqrt) id
            (defineMonitors (@exampleConstants ℝ _).toFlt exampleAppFlt)
            (Flt.fin 0) (Flt.fin 0) (Flt.fin (-1))).mCameras
            (@exampleConstants ℝ _).toFlt.North).customProjMatrix = some A
        ∧ (A.m00 = Flt.nan ∧ A.m01 = Flt.nan ∧ A.m02 = Flt.nan ∧ A.m03 = Flt.nan)
        ∧ (A.m10 = Flt.nan ∧ A.m11 = Flt.nan ∧ A.m12 = Flt.nan ∧ A.m13 = Flt.nan) := by
  obtain ⟨hd, hl, hr, -, -⟩ := example_on_plane_values
  obtain ⟨-, -, hcam⟩ := updateProjMatrices_eq (@exampleConstants ℝ _).toFlt
    (Flt.sqrt Real.sqrt) id (defineMonitors (@exampleConstants ℝ _).toFlt exampleAppFlt)
    (Flt.fin 0) (Flt.fin 0) (Flt.fin (-1))
  obtain ⟨-, h0, h1⟩ := offAxis_rows_nan (Flt.sqrt Real.sqrt)
    (@exampleConstants ℝ _).toFlt.NearClipDist (@exampleConstants ℝ _).toFlt.FarClipDist
    ((defineMonitors (@exampleConstants ℝ _).toFlt exampleAppFlt).mMonitors
      (@exampleConstants ℝ _).toFlt.North)
    (eyeVector id (Flt.fin 0) (Flt.fin 0) (Flt.fin (-1))) (by rw [hd]; rfl)
  refine ⟨hd, hl, hr, rfl, _, ?_, h0, h1⟩
  rw [hcam, if_pos (by decide)]
  rfl

/-- C2 as amended, at the example layout with the eye in the plane of North. -/
theorem updateProjMatrices_in_plane_installs_witness :
    ∃ A : Matrix4 (Flt ℝ),
      ((updateProjMatrices (@exampleConstants ℝ _).toFlt (Flt.sqrt Real.sqrt) id
          (defineMonitors (@exampleConstants ℝ _).toFlt exampleAppFlt)
          (Flt.fin 0) (Flt.fin 0) (Flt.fin (-1))).mCameras
          (@exampleConstants ℝ _).toFlt.North).customProjMatrix = some A
      ∧ (A.m00 = Flt.nan ∧ A.m01 = Flt.nan ∧ A.m02 = Flt.nan ∧ A.m03 = Flt.nan)
      ∧ (A.m10 = Flt.nan ∧ A.m11 = Flt.nan ∧ A.m12 = Flt.nan ∧ A.m13 = Flt.nan) :=
  ((updateProjMatrices_in_plane_installs (@exampleConstants ℝ _).toFlt (Flt.sqrt Real.sqrt) id
    (defineMonitors (@exampleConstants ℝ _).toFlt exampleAppFlt)
    (Flt.fin 0) (Flt.fin 0) (Flt.fin (-1)) (@exampleConstants ℝ _).toFlt.North
    (by decide)).2 (by rw [example_on_plane_values.1]; rfl)).2

/-- C5 at the example layout: the West display. -/
theorem defineMonitors_centered_frustum_witness :
    frustumL Real.sqrt (@exampleConstants ℝ _).NearClipDist
        ((defineMonitors (@exampleConstants ℝ _) exampleApp).mMonitors
          (@exampleConstants ℝ _).West) ⟨0, 0, 0⟩
      = -frustumR Real.sqrt (@exampleConstants ℝ _).NearClipDist
        ((defineMonitors (@exampleConstants ℝ _) exampleApp).mMonitors
          (@exampleConstants ℝ _).West) ⟨0, 0, 0⟩ :=
  (defineMonitors_centered_frustum (@exampleConstants ℝ _) Real.sqrt isSqrt_real exampleApp
    (by norm_num [exampleConstants]) (by norm_num [exampleConstants])
    (by decide) (by decide) (by decide) (@exampleConstants ℝ _).West
    (Or.inr (Or.inl rfl))).2.2.2.2.1

/-- C6 at the example layout. -/
theorem defineMonitors_shared_edges_witness :
    ((defineMonitors (@exampleConstants ℝ _) exampleApp).mMonitors
        (@exampleConstants ℝ _).West).pb
      = ((defineMonitors (@exampleConstants ℝ _) exampleApp).mMonitors
        (@exampleConstants ℝ _).North).pa :=
  (defineMonitors_shared_edges (@exampleConstants ℝ _) exampleApp
    (by decide) (by decide) (by decide)).1

/-- C8 at the example layout: cameras with and without an earlier matrix. -/
theorem updateProjMatrices_pure_witness :
    ((updateProjMatrices (@exampleConstants ℝ _) Real.sqrt toBinary32
        (defineMonitors (@exampleConstants ℝ _) exampleApp) 0 0 0).mCameras 0).customProjMatrix
      = ((updateProjMatrices (@exampleConstants ℝ _) Real.sqrt toBinary32
          (updateProjMatrices (@exampleConstants ℝ _) Real.sqrt toBinary32
            (defineMonitors (@exampleConstants ℝ _) exampleApp) 1 2 3) 0 0 0).mCameras
          0).customProjMatrix :=
  ((updateProjMatrices_pure (@exampleConstants ℝ _) Real.sqrt toBinary32
    (defineMonitors (@exampleConstants ℝ _) exampleApp)
    (updateProjMatrices (@exampleConstants ℝ _) Real.sqrt toBinary32
      (defineMonitors (@exampleConstants ℝ _) exampleApp) 1 2 3) 0 0 0
    (fun i _ => by
      rw [(updateProjMatrices_eq (@exampleConstants ℝ _) Real.sqrt toBinary32
        (defineMonitors (@exampleConstants ℝ _) exampleApp) 1 2 3).1]
      exact ⟨rfl, rfl, rfl⟩)).1 0 (by decide)).2

/-- C9 at the example of the spec (waitBefore = 1.0, activeDuration = 2.0,
waitAfter = 0.5, ticks of 0.1 s): the stimulus is in WaitBefore until the
update at t = 1.0 moves it to Active, in Active until the update at t = 3.0
moves it to WaitAfter, and completion is signalled by the update at t = 3.5. -/
theorem CylinderBars_phase_order_witness :
    (CylinderBars.after (@exampleStimulus ℚ _) exampleTick 1).currentState
        = CylinderBarStates.WaitBefore
    ∧ (CylinderBars.after (@exampleStimulus ℚ _) exampleTick 10).currentState
        = CylinderBarStates.WaitBefore
    ∧ (CylinderBars.after (@exampleStimulus ℚ _) exampleTick 11).currentState
        = CylinderBarStates.Active
    ∧ (CylinderBars.after (@exampleStimulus ℚ _) exampleTick 30).currentState
        = CylinderBarStates.Active
    ∧ (CylinderBars.after (@exampleStimulus ℚ _) exampleTick 31).currentState
        = CylinderBarStates.WaitAfter
    ∧ (CylinderBars.after (@exampleStimulus ℚ _) exampleTick 35).isDone = false
    ∧ (CylinderBars.after (@exampleStimulus ℚ _) exampleTick 36).isDone = true := by
  obtain ⟨⟨a1, -, -⟩, -, T⟩ :=
    CylinderBars_phase_order (@exampleStimulus ℚ _) exampleTick rfl rfl
  -- WaitBefore, entered at tick 0, left at tick 10
  obtain ⟨b1, -, -, -, b2⟩ := T 0 10 CylinderBarStates.WaitBefore (by decide) (by decide)
    (by simp [CylinderBars.after, exampleStimulus]) a1
    (by
      intro i h1 h2
      have h3 : (i : ℚ) ≤ 9 := by exact_mod_cast Nat.lt_succ_iff.mp h2
      simp only [exampleTick, CylinderBars.duration, exampleStimulus]
      norm_num
      linarith)
  have b3 := ((b2 (by norm_num [exampleTick, CylinderBars.duration, exampleStimulus])).1 rfl).1
  -- Active, entered at tick 10, left at tick 30
  obtain ⟨c1, -, -, -, c2⟩ := T 10 30 CylinderBarStates.Active (by decide) (by decide)
    (by rw [b1]; decide) b3
    (by
      intro i h1 h2
      have h3 : (i : ℚ) ≤ 29 := by exact_mod_cast Nat.lt_succ_iff.mp h2
      simp only [exampleTick, CylinderBars.duration, exampleStimulus]
      norm_num
      linarith)
  have c3 := ((c2 (by norm_num [exampleTick, CylinderBars.duration, exampleStimulus])).2.1 rfl).1
  -- WaitAfter, entered at tick 30, completion at tick 35
  obtain ⟨-, d1, -, -, d2⟩ := T 30 35 CylinderBarStates.WaitAfter (by decide) (by decide)
    (by rw [c1]; decide) c3
    (by
      intro i h1 h2
      have h3 : (i : ℚ) ≤ 34 := by exact_mod_cast Nat.lt_succ_iff.mp h2
      simp only [exampleTick, CylinderBars.duration, exampleStimulus]
      norm_num
      linarith)
  have d3 := ((d2 (by norm_num [exampleTick, CylinderBars.duration, exampleStimulus])).2.2 rfl).2
  exact ⟨a1, b1, b3, c1, c3, d1, d3⟩

/-- C3 at example data: a period of 1/60 s; a tick of 1/200 s sleeps until
the deadline start + 1/60, a tick of 1/50 s prints the slow-frame line. -/
theorem GraphicsThread_pace_decision_witness :
    GraphicsThread.pace (@exampleConstants ℚ _) 5 (5 + 1 / 200) = ⟨none, some (5 + 1 / 60)⟩
    ∧ GraphicsThread.pace (@exampleConstants ℚ _) 5 (5 + 1 / 50)
        = ⟨some (5 + 1 / 50 - 5), none⟩ :=
  ⟨(GraphicsThread_pace_decision (@exampleConstants ℚ _) 5 (5 + 1 / 200)).2.2.1
      (by norm_num [exampleConstants]),
   (GraphicsThread_pace_decision (@exampleConstants ℚ _) 5 (5 + 1 / 50)).2.1
      (by norm_num [exampleConstants])⟩

end Witnesses

end Tracker
